import Mathlib

/-!
DHT11 sensor driver for the ATmega328p.

A shallow embedding of `DHT11_Sensor.h` / `DHT11_Sensor.cpp`.

* `float` is IEEE 754 single precision: every arithmetic result is rounded to
  the nearest representable value, ties to even.  Infinities and NaN are one
  value, `FP.notFinite`, which every operation of the driver passes on; the
  sign of zero is not kept.
* The widths of `int` and of `double` are not fixed by the source but by the
  compiler, so they are a parameter, `Target`.  With avr-gcc for the ATmega328p
  `int` has 16 bits and `double` is the same 32-bit type as `float`
  (`Target.atmega328p`); where the driver is built for another machine `int`
  usually has 32 bits and `double` is IEEE 754 double precision.  `int`
  arithmetic wraps modulo `2^16` or `2^32`.  The literals `1.8` and `10.0` are
  `double`s, so the expressions they occur in are evaluated in `double` and
  rounded to `float` when stored.
* The hardware (data line, `micros()` clock, `TIMSK1`/`TIMSK2`) is explicit
  state plus a script of what the busy-wait loops observe.
-/

set_option maxRecDepth 4000

namespace DHT11Sensor

/-! ## Floating-point and integer arithmetic -/

/-- A floating-point value: a finite number, or a value that is not finite (an
infinity or NaN). -/
inductive FP where
  | finite (q : ℚ)
  | notFinite
deriving DecidableEq, Repr

/-- Round to the nearest integer, a tie going to the even one. -/
def roundNearestEven (q : ℚ) : ℤ :=
  if q - ⌊q⌋ < 1 / 2 then ⌊q⌋
  else if 1 / 2 < q - ⌊q⌋ then ⌊q⌋ + 1
  else if ⌊q⌋ % 2 = 0 then ⌊q⌋ else ⌊q⌋ + 1

/-- Round the exact result `x` of an operation to the binary format with `p`
significant bits, smallest normal exponent `emin` and overflow threshold
`2^emax`: the exponent is `⌊log₂ |x|⌋` (and `emin` throughout the subnormal
range), the significand is rounded to nearest, ties to even, and a result that
rounds to `2^emax` or beyond is an infinity. -/
def roundBin (p : ℕ) (emin emax : ℤ) (x : ℚ) : FP :=
  if x = 0 then FP.finite 0
  else
    let e : ℤ := max (Int.log 2 |x|) emin
    let y : ℚ := (roundNearestEven (x / 2 ^ (e - ((p : ℤ) - 1))) : ℚ) * 2 ^ (e - ((p : ℤ) - 1))
    if (2 : ℚ) ^ emax ≤ |y| then FP.notFinite else FP.finite y

/-- Rounding to IEEE 754 single precision (binary32). -/
def roundF32 (x : ℚ) : FP :=
  roundBin 24 (-126) 128 x

/-- Rounding to IEEE 754 double precision (binary64). -/
def roundF64 (x : ℚ) : FP :=
  roundBin 53 (-1022) 1024 x

/-- The width of `int`. -/
inductive IntWidth where
  | bits16
  | bits32
deriving DecidableEq, Repr

/-- The format of `double`. -/
inductive DoubleFormat where
  | binary32
  | binary64
deriving DecidableEq, Repr

/-- What the compiler fixes: the width of `int` and the format of `double`. -/
structure Target where
  int : IntWidth
  double : DoubleFormat
deriving DecidableEq, Repr

namespace Target

/-- The ATmega328p with avr-gcc: 16-bit `int`, `double` the same as `float`. -/
def atmega328p : Target :=
  { int := IntWidth.bits16, double := DoubleFormat.binary32 }

/-- A 16-bit `int` with a double-precision `double`. -/
def wideDouble : Target :=
  { int := IntWidth.bits16, double := DoubleFormat.binary64 }

/-- Rounding of the result of a `double` operation. -/
def roundDouble (tg : Target) (x : ℚ) : FP :=
  match tg.double with
  | DoubleFormat.binary32 => roundF32 x
  | DoubleFormat.binary64 => roundF64 x

/-- The conversion of a `double` to `float`, when it is stored in a `float` or
returned as one: nothing changes where `double` is `float`, and the value is
rounded to single precision where `double` is wider. -/
def storeFloat (tg : Target) (v : FP) : FP :=
  match tg.double, v with
  | DoubleFormat.binary32, v => v
  | DoubleFormat.binary64, FP.finite q => roundF32 q
  | DoubleFormat.binary64, FP.notFinite => FP.notFinite

/-- The literal `1.8`: the `double` nearest to it, `15099494 * 2^-23` in single
and `8106479329266893 * 2^-52` in double precision. -/
def lit18 (tg : Target) : ℚ :=
  match tg.double with
  | DoubleFormat.binary32 => 7549747 / 4194304
  | DoubleFormat.binary64 => 8106479329266893 / 4503599627370496

/-- The result of an `int` operation whose exact value is `x`: the
two's-complement representative of `x` modulo `2^16` or `2^32`. -/
def wrapInt (tg : Target) (x : Int) : Int :=
  match tg.int with
  | IntWidth.bits16 => (x + 32768) % 65536 - 32768
  | IntWidth.bits32 => (x + 2147483648) % 4294967296 - 2147483648

end Target

/-- The `float` to which the `int` `n` converts: `n` itself when it has at most
24 significant bits, the nearest `float` otherwise.  (No `int` is outside the
range of `float`, so the second branch is never taken.) -/
def floatOfInt (n : Int) : ℚ :=
  match roundF32 (n : ℚ) with
  | FP.finite q => q
  | FP.notFinite => 0

namespace FP

/-- The sum `a + b` of two `float`s. -/
def add : FP → FP → FP
  | finite a, finite b => roundF32 (a + b)
  | _, _ => notFinite

/-- The difference `a - b` of two `float`s. -/
def sub : FP → FP → FP
  | finite a, finite b => roundF32 (a - b)
  | _, _ => notFinite

/-- The product `a * b` of two `float`s. -/
def mul : FP → FP → FP
  | finite a, finite b => roundF32 (a * b)
  | _, _ => notFinite

/-- The quotient `a / d` of a `float` by a finite `float` divisor `d` (in the
driver a converted `int`); dividing by zero gives an infinity or NaN. -/
def divBy (a : FP) (d : ℚ) : FP :=
  match a with
  | finite x => if d = 0 then notFinite else roundF32 (x / d)
  | notFinite => notFinite

/-- The conversion of an `int` to `float`. -/
def ofInt (n : Int) : FP :=
  finite (floatOfInt n)

/-- The sum `a + b` of two `double`s. -/
def addD (tg : Target) : FP → FP → FP
  | finite a, finite b => tg.roundDouble (a + b)
  | _, _ => notFinite

/-- The product `a * b` of two `double`s. -/
def mulD (tg : Target) : FP → FP → FP
  | finite a, finite b => tg.roundDouble (a * b)
  | _, _ => notFinite

/-- The quotient `a / d` of a `double` by a finite `double` divisor `d` (in the
driver a literal); dividing by zero gives an infinity or NaN. -/
def divByD (tg : Target) (a : FP) (d : ℚ) : FP :=
  match a with
  | finite x => if d = 0 then notFinite else tg.roundDouble (x / d)
  | notFinite => notFinite

/-- The conversion of an `int` to `double`. -/
def ofIntD (tg : Target) (n : Int) : FP :=
  tg.roundDouble (n : ℚ)

end FP

/-- The rational `x` is a single-precision value: rounding leaves it as it
is. -/
def Representable (x : ℚ) : Prop :=
  roundF32 x = FP.finite x

/-! ## Measurement value type -/

/-- The enum `TempScale {Celsius, Fahrenheit, Kelvin}`. -/
inductive TempScale where
  | Celsius
  | Fahrenheit
  | Kelvin
deriving DecidableEq, Repr

open TempScale

/-- The struct `DHTMeasurement`; the field defaults are the default arguments of
its constructor `DHTMeasurement(float = 20, float = 40, TempScale = Celsius, int = 1)`,
which stores its four arguments verbatim. -/
structure DHTMeasurement where
  temperature : FP := FP.finite 20
  humidity : FP := FP.finite 40
  scale : TempScale := Celsius
  averageCount : Int := 1
deriving DecidableEq

namespace DHTMeasurement

/-- The method `fahrenToCelsius`: `scale = Celsius; temperature = (temperature - 32)/1.8`.
The difference is a `float`, the quotient by the literal a `double`. -/
def fahrenToCelsius (tg : Target) (m : DHTMeasurement) : DHTMeasurement :=
  { m with scale := Celsius,
           temperature :=
             tg.storeFloat (FP.divByD tg (FP.sub m.temperature (FP.finite 32)) tg.lit18) }

/-- The method `kelvinToCelsius`: `scale = Celsius; temperature = temperature - 273`. -/
def kelvinToCelsius (m : DHTMeasurement) : DHTMeasurement :=
  { m with scale := Celsius, temperature := FP.sub m.temperature (FP.finite 273) }

/-- The method `celsiusToFahren`: `scale = Fahrenheit; temperature = temperature*1.8 + 32`.
Product and sum are `double`s. -/
def celsiusToFahren (tg : Target) (m : DHTMeasurement) : DHTMeasurement :=
  { m with scale := Fahrenheit,
           temperature :=
             tg.storeFloat
               (FP.addD tg (FP.mulD tg m.temperature (FP.finite tg.lit18)) (FP.finite 32)) }

/-- The method `celsiusToKelvin`: `scale = Kelvin; temperature = temperature + 273`. -/
def celsiusToKelvin (m : DHTMeasurement) : DHTMeasurement :=
  { m with scale := Kelvin, temperature := FP.add m.temperature (FP.finite 273) }

/-- The method `convertScale(newScale)`: nothing when the scale is already
`newScale`; otherwise a first leg to Celsius (when not already there) and a
second leg from Celsius to `newScale` (when that is not Celsius). -/
def convertScale (tg : Target) (m : DHTMeasurement) (newScale : TempScale) : DHTMeasurement :=
  if m.scale = newScale then m
  else
    let m1 :=
      if m.scale ≠ Celsius then
        if m.scale = Fahrenheit then fahrenToCelsius tg m
        else if m.scale = Kelvin then kelvinToCelsius m
        else m
      else m
    if newScale ≠ Celsius then
      if newScale = Fahrenheit then celsiusToFahren tg m1
      else if newScale = Kelvin then celsiusToKelvin m1
      else m1
    else m1

/-- The body of `operator+=(DHTMeasurement newMeasurement)`.  The parameter is
passed by value, so the body works on its own copy; the result is the receiver
after the call together with that local copy as it stands when the body ends.
In `temperature * averageCount` the count is converted to `float`; the divisor
`averageCount + newMeasurement.averageCount` is an `int` sum, converted to
`float` for the division. -/
def operatorPlusEqBody (tg : Target) (self newMeasurement : DHTMeasurement) :
    DHTMeasurement × DHTMeasurement :=
  let differ := decide (self.scale ≠ newMeasurement.scale)
  let self1 := if differ then self.convertScale tg Celsius else self
  let new1 := if differ then newMeasurement.convertScale tg Celsius else newMeasurement
  let t := FP.divBy
    (FP.add (FP.mul self1.temperature (FP.ofInt self1.averageCount))
      (FP.mul new1.temperature (FP.ofInt new1.averageCount)))
    (floatOfInt (tg.wrapInt (self1.averageCount + new1.averageCount)))
  let self2 := { self1 with temperature := t }
  let h := FP.divBy
    (FP.add (FP.mul self2.humidity (FP.ofInt self2.averageCount))
      (FP.mul new1.humidity (FP.ofInt new1.averageCount)))
    (floatOfInt (tg.wrapInt (self2.averageCount + new1.averageCount)))
  let self3 := { self2 with humidity := h }
  ({ self3 with averageCount := tg.wrapInt (self3.averageCount + 1) }, new1)

/-- The statement `a += b` seen from the caller, who owns both `a` and `b`:
`a` becomes the receiver computed by the body, and `b`, of which the body only
got a copy, is what it was. -/
def operatorPlusEq (tg : Target) (ab : DHTMeasurement × DHTMeasurement) :
    DHTMeasurement × DHTMeasurement :=
  ((operatorPlusEqBody tg ab.1 ab.2).1, ab.2)

end DHTMeasurement

open DHTMeasurement

/-- The temperature `t`, stored in unit `s`, converted to Celsius in floating
point with the formulas of the specification: `(t - 32)/1.8` from Fahrenheit
and `t - 273` from Kelvin. -/
def inCelsius (tg : Target) (s : TempScale) (t : FP) : FP :=
  match s with
  | Celsius => t
  | Fahrenheit => tg.storeFloat (FP.divByD tg (FP.sub t (FP.finite 32)) tg.lit18)
  | Kelvin => FP.sub t (FP.finite 273)

/-- The weighted mean `(x*wa + y*wb)/(wa + wb)` of the specification, evaluated
in single precision: both products, their sum and the quotient are rounded. -/
def weightedMean (x y : FP) (wa wb : Int) : FP :=
  FP.divBy (FP.add (FP.mul x (FP.ofInt wa)) (FP.mul y (FP.ofInt wb))) (floatOfInt (wa + wb))

/-- The constant `N_DATA_BYTES` of the class `DHT11`. -/
def N_DATA_BYTES : Nat := 5

/-- Number of values of one cell of `data`.  The header declares
`uint8_t *data[N_DATA_BYTES]`, an array of pointers, and the driver does integer
arithmetic in the cells themselves; a pointer of the ATmega328p has 16 bits. -/
def CELL : Nat := 65536

/-- A high phase that the driver times with
`while (digitalRead(dataPin)) if (micros() - timer > LIMIT) return false;`
followed by one more `micros() - timer`: `polls` are the elapsed times computed
inside the loop, one for each iteration that found the line still high, and
`final` is the elapsed time computed after the loop has been left. -/
structure Pulse where
  polls : List Nat
  final : Nat
deriving DecidableEq, Repr

/-- What `confirmRequest` observes: the elapsed time `low` computed once the
line has gone high, and the timed high phase that follows. -/
structure Ack where
  low : Nat
  high : Pulse
deriving DecidableEq, Repr

/-- The operations on the data line whose timing the interrupt masking is
about. -/
inductive LineOp where
  | driveLow
  | driveHigh
  | timeAck
  | timeBit
deriving DecidableEq, Repr

/-- A line operation together with the contents of `TIMSK1` and `TIMSK2` at the
moment it is performed. -/
structure Event where
  op : LineOp
  timsk1 : Nat
  timsk2 : Nat
deriving DecidableEq, Repr

/-- The registers `TIMSK1`, `TIMSK2` of the microcontroller, the members
`timer1Mask`, `timer2Mask` and `data` of the `DHT11` object (cells `0..4` of
`data` are the array), and the line operations performed so far, oldest
first. -/
structure State where
  TIMSK1 : Nat
  TIMSK2 : Nat
  timer1Mask : Nat
  timer2Mask : Nat
  data : Nat → Nat
  trace : List Event

/-- One pass of the loop of `getData`: the acknowledgments seen by the
successive iterations of the `do ... while (!confirmRequest())` loop of
`requestData`, and the bit pulses seen by `receiveData` once one of them has
been accepted. -/
structure Round where
  acks : List Ack
  pulses : Nat → Pulse

/-- Append a line operation, with the current mask registers, to the trace. -/
def record (op : LineOp) (s : State) : State :=
  { s with trace := s.trace ++ [{ op := op, timsk1 := s.TIMSK1, timsk2 := s.TIMSK2 }] }

/-- The assignment `data[j] = v`. -/
def setData (j v : Nat) (s : State) : State :=
  { s with data := Function.update s.data j v }

/-- The method `DHT11::getTimerMasks`: `timer1Mask = TIMSK1; timer2Mask = TIMSK2;`. -/
def getTimerMasks (s : State) : State :=
  { s with timer1Mask := s.TIMSK1, timer2Mask := s.TIMSK2 }

/-- The method `DHT11::disableInterrupts`:
`getTimerMasks(); TIMSK1 &= B11111000; TIMSK2 &= B11111000;`. -/
def disableInterrupts (s : State) : State :=
  let s1 := getTimerMasks s
  { s1 with TIMSK1 := s1.TIMSK1 &&& 0b11111000, TIMSK2 := s1.TIMSK2 &&& 0b11111000 }

/-- The method `DHT11::enableInterrupts`: `TIMSK1 = timer1Mask; TIMSK2 = timer2Mask;`. -/
def enableInterrupts (s : State) : State :=
  { s with TIMSK1 := s.timer1Mask, TIMSK2 := s.timer2Mask }

/-- The bail-out of a timed loop: some `micros() - timer` computed inside the
loop is greater than `limit`. -/
def timedOut (limit : Nat) (polls : List Nat) : Bool :=
  polls.any (fun r => decide (limit < r))

/-- The method `DHT11::confirmRequest` with `MIN_LOW_DURATION = 30`,
`MAX_HIGH_DURATION = 100`, `MIN_HIGH_DURATION = 40`. -/
def confirmRequest (a : Ack) (s : State) : Bool × State :=
  let s1 := record LineOp.timeAck s
  if a.low < 30 then (false, s1)
  else if timedOut 100 a.high.polls then (false, s1)
  else (decide (40 < a.high.final), s1)

/-- The body of the `do ... while` loop of `requestData`: restore the masks,
wait, drive the line low for 20 ms, mask the timer interrupts, drive the line
high for 40 µs. -/
def requestPulse (s : State) : State :=
  let s1 := enableInterrupts s
  let s2 := record LineOp.driveLow s1
  let s3 := disableInterrupts s2
  record LineOp.driveHigh s3

/-- The method `DHT11::requestData`.  `Except.ok` is the state in which the function
returns; when the sensor stops answering (no acknowledgment left) the request
pulse is still sent and `Except.error` is the state in which `confirmRequest`
then waits for the line. -/
def requestData : List Ack → State → Except State State
  | [], s => Except.error (requestPulse s)
  | a :: rest, s =>
    match confirmRequest a (requestPulse s) with
    | (true, s1) => Except.ok s1
    | (false, s1) => requestData rest s1

/-- The bit loop of `receiveData`, `for (int i = ...; i < N_DATA_BITS; i++)`,
with `n` iterations left to run from index `i`; `MAX_HIGH_BIT_DURATION = 100`
and `MIN_HIGH_BIT_DURATION = 47`.  The flag is `false` when the loop ran into
`return false`. -/
def receiveBits (pulses : Nat → Pulse) : Nat → Nat → State → Bool × State
  | 0, _, s => (true, s)
  | n + 1, i, s =>
    let s1 := record LineOp.timeBit s
    if timedOut 100 (pulses i).polls then (false, s1)
    else
      let currBit : Bool := decide (47 < (pulses i).final)
      let s2 := setData (i / 8) ((s1.data (i / 8) + currBit.toNat) % CELL) s1
      let s3 := if i % 8 ≠ 7 then setData (i / 8) ((s2.data (i / 8) <<< 1) % CELL) s2 else s2
      receiveBits pulses n (i + 1) s3

/-- The loop `uint8_t sum = 0; for (i < N_DATA_BYTES - 1) sum += data[i];`. -/
def checksum (data : Nat → Nat) : Nat :=
  (List.range (N_DATA_BYTES - 1)).foldl (fun sum i => (sum + data i) % 256) 0

/-- The method `DHT11::receiveData`: clear the five cells, read `N_DATA_BITS = 40` bits,
compare the sum of the first four cells with the fifth. -/
def receiveData (pulses : Nat → Pulse) (s : State) : Bool × State :=
  let s0 := (List.range N_DATA_BYTES).foldl (fun st i => setData i 0 st) s
  match receiveBits pulses (N_DATA_BYTES * 8) 0 s0 with
  | (false, s1) => (false, s1)
  | (true, s1) => (decide (checksum s1.data = s1.data 4), s1)

/-- The loop `while (!success) { requestData(); success = receiveData(); }` of
`getData`, one `Round` of the script for each pass.  When the script is used up
the next request is still sent and the driver is left waiting. -/
def getDataLoop : List Round → State → Except State State
  | [], s => requestData [] s
  | r :: rest, s =>
    match requestData r.acks s with
    | Except.error s1 => Except.error s1
    | Except.ok s1 =>
      match receiveData r.pulses s1 with
      | (true, s2) => Except.ok s2
      | (false, s2) => getDataLoop rest s2

/-- The method `DHT11::getData`: `getTimerMasks()`, the retry loop, `enableInterrupts()`.
`Except.ok` is the state on return, `Except.error` the state in which the
driver is left waiting for a sensor that has stopped answering. -/
def getData (script : List Round) (s : State) : Except State State :=
  match getDataLoop script (getTimerMasks s) with
  | Except.ok s1 => Except.ok (enableInterrupts s1)
  | Except.error s1 => Except.error s1

/-- The conversion `int(data[j])` of a 16-bit cell to `int`; a cell that holds
a byte, `0..255`, converts to that byte whatever the width of `int`. -/
def intOfCell (x : Nat) : Int :=
  if x < 32768 then (x : Int) else (x : Int) - 65536

/-- The method `DHT11::parseTemperature`: `float value = int(data[2]) + int(data[3]) / 10.0`,
evaluated in `double` and stored in a `float`, then the conversion to the
requested scale: `value * 1.8 + 32` in `double`, returned as `float`, or
`value + 273` in `float`. -/
def parseTemperature (tg : Target) (s : State) (scale : TempScale) : FP :=
  let value : FP := tg.storeFloat
    (FP.addD tg (FP.ofIntD tg (intOfCell (s.data 2)))
      (FP.divByD tg (FP.ofIntD tg (intOfCell (s.data 3))) 10))
  match scale with
  | Celsius => value
  | Fahrenheit => tg.storeFloat (FP.addD tg (FP.mulD tg value (FP.finite tg.lit18)) (FP.finite 32))
  | Kelvin => FP.add value (FP.finite 273)

/-- The method `DHT11::parseHumidity`: `int(data[0]) + int(data[1]) / 10.0`, evaluated
in `double` and returned as `float`. -/
def parseHumidity (tg : Target) (s : State) : FP :=
  tg.storeFloat
    (FP.addD tg (FP.ofIntD tg (intOfCell (s.data 0)))
      (FP.divByD tg (FP.ofIntD tg (intOfCell (s.data 1))) 10))

/-- The method `DHT11::getTemperature`: the value returned, if the call returns. -/
def getTemperature (tg : Target) (scale : TempScale) (script : List Round) (s : State) :
    Option FP :=
  match getData script s with
  | Except.ok s1 => some (parseTemperature tg s1 scale)
  | Except.error _ => none

/-- The method `DHT11::getHumidity`: the value returned, if the call returns. -/
def getHumidity (tg : Target) (script : List Round) (s : State) : Option FP :=
  match getData script s with
  | Except.ok s1 => some (parseHumidity tg s1)
  | Except.error _ => none

/-- The method `DHT11::getMeasurements`: the value returned, if the call returns.  The
constructor call passes two arguments, `DHTMeasurement(parseTemperature(scale),
parseHumidity())`, so `scale` and `averageCount` take their defaults. -/
def getMeasurements (tg : Target) (scale : TempScale) (script : List Round) (s : State) :
    Option DHTMeasurement :=
  match getData script s with
  | Except.ok s1 =>
    some { temperature := parseTemperature tg s1 scale, humidity := parseHumidity tg s1 }
  | Except.error _ => none

/-! ### A simulated sensor -/

/-- The high phase the sensor sends for one bit, as the comment in
`receiveData` gives it (24 µs for a `0`, 70 µs for a `1`), seen through a clock
that advances 4 µs between two reads. -/
def sensorBit (b : Bool) : Pulse :=
  if b then { polls := (List.range 17).map (fun k => 4 * (k + 1)), final := 72 }
  else { polls := (List.range 5).map (fun k => 4 * (k + 1)), final := 24 }

/-- The 40 pulses with which the sensor sends the five bytes of `payload`, most
significant bit first. -/
def sensorPulses (payload : List Nat) : Nat → Pulse :=
  fun i => sensorBit ((payload.getD (i / 8) 0).testBit (7 - i % 8))

/-- The acknowledgment of a sensor that received the request, as the comments
in `confirmRequest` give it (low for about 54 µs, then high for about 80 µs),
seen through the same clock. -/
def sensorAck : Ack :=
  { low := 56, high := { polls := (List.range 19).map (fun k => 4 * (k + 1)), final := 80 } }

/-- A round in which the first request is acknowledged and `payload` is
sent. -/
def sensorRound (payload : List Nat) : Round :=
  { acks := [sensorAck], pulses := sensorPulses payload }

/-- A state of the board before a call: Timer1 overflow and compare-A
interrupts and Timer2 overflow interrupt enabled. -/
def bootState : State :=
  { TIMSK1 := 0b00000011, TIMSK2 := 0b00000001, timer1Mask := 0, timer2Mask := 0,
    data := fun _ => 0, trace := [] }

/-- The state a run ends in, whether the call returned or is left waiting. -/
def lastState : Except State State → State
  | Except.ok s => s
  | Except.error s => s

/-- Whether the call returned. -/
def returned : Except State State → Bool
  | Except.ok _ => true
  | Except.error _ => false


/-- The bit decoded from pulse `i`: 1 when the high phase was measured longer
than 47 µs, 0 otherwise. -/
def bitOf (pulses : Nat → Pulse) (i : Nat) : Nat :=
  if 47 < (pulses i).final then 1 else 0

/-- The spec-side value of payload byte `j`: the sum over `k = 0..7` of
`b[8j+k] * 2^(7-k)`, where `b[i] = bitOf pulses i`. -/
def decodedByte (pulses : Nat → Pulse) (j : Nat) : Nat :=
  ∑ k in Finset.range 8, bitOf pulses (8 * j + k) * 2 ^ (7 - k)

/-- The contents of cell `j` once `m` bits of byte `j` have been read: every
bit but the eighth is followed by a shift to the left. -/
def byteAfter (pulses : Nat → Pulse) (j : Nat) : Nat → Nat
  | 0 => 0
  | m + 1 =>
    if m = 7 then byteAfter pulses j m + bitOf pulses (8 * j + m)
    else (byteAfter pulses j m + bitOf pulses (8 * j + m)) * 2

/-- The cells `0..4` when the bit loop is about to read pulse `i`: the bytes
before `i / 8` are complete, byte `i / 8` holds its first `i % 8` bits, and the
bytes after it are still zero. -/
def BitsRead (pulses : Nat → Pulse) (i : Nat) (data : Nat → Nat) : Prop :=
  ∀ j, j < 5 → data j =
    if j < i / 8 then byteAfter pulses j 8
    else if j = i / 8 then byteAfter pulses j (i % 8)
    else 0

/-- A high phase measured at `d` µs throughout: the last timeout check inside
the loop and the reading taken after the loop both see the elapsed time `d`. -/
def steady (d : Nat) : Pulse :=
  { polls := [d], final := d }

/-- Pulses of the payload `[128,0,0,0,128]` in which each of the two `1` bits
(bits 0 and 32) has a high phase that the timeout checks see at 96 µs and
100 µs and that is measured at 104 µs once the line has dropped. -/
def latePulses : Nat → Pulse :=
  fun i => if i = 0 ∨ i = 32 then { polls := [96, 100], final := 104 }
    else { polls := (List.range 5).map (fun k => 4 * (k + 1)), final := 24 }

/-- The condition of acceptance as the specification words it: no measured
high phase exceeds 100 µs and the first four decoded bytes sum, modulo 256, to
the fifth. -/
def specReceiveOk (pulses : Nat → Pulse) : Prop :=
  (∀ i, i < 40 → (pulses i).final ≤ 100)
    ∧ (decodedByte pulses 0 + decodedByte pulses 1 + decodedByte pulses 2
        + decodedByte pulses 3) % 256 = decodedByte pulses 4

/-- The acceptance window as the specification words it: low phase of at least
30 µs, high phase from 40 µs up to, but not including, 100 µs. -/
def specAckWindow (a : Ack) : Prop :=
  30 ≤ a.low ∧ 40 ≤ a.high.final ∧ a.high.final < 100

/-- An acknowledgment whose high phase is measured at exactly 40 µs. -/
def ackHigh40 : Ack :=
  { low := 56, high := { polls := (List.range 9).map (fun k => 4 * (k + 1)), final := 40 } }

/-- An acknowledgment whose high phase is measured at exactly 100 µs, in the
loop and after it. -/
def ackHigh100 : Ack :=
  { low := 56, high := { polls := (List.range 25).map (fun k => 4 * (k + 1)), final := 100 } }

/-- A request that is acknowledged only at the second attempt (the first
acknowledgment has too short a high phase), then two transmissions with a wrong
checksum followed by a correct one. -/
def retryScript : List Round :=
  [{ acks := [ackHigh40, sensorAck], pulses := sensorPulses [10, 0, 25, 0, 36] },
    sensorRound [10, 0, 25, 0, 36], sensorRound [10, 0, 25, 0, 35]]

/-- An event is in order for saved masks `o1`, `o2`: the line is driven low
with the mask registers holding `o1`, `o2`, and every other line operation
happens with the three low bits of both registers cleared from `o1`, `o2`. -/
def EventOk (o1 o2 : Nat) (e : Event) : Prop :=
  (e.op = LineOp.driveLow → e.timsk1 = o1 ∧ e.timsk2 = o2)
    ∧ (e.op ≠ LineOp.driveLow → e.timsk1 = o1 &&& 0b11111000 ∧ e.timsk2 = o2 &&& 0b11111000)

/-- Loop-head invariant: the saved masks are `o1`, `o2` and every event that is
not in the earlier trace `t0` is in order. -/
def Saved (o1 o2 : Nat) (t0 : List Event) (s : State) : Prop :=
  s.timer1Mask = o1 ∧ s.timer2Mask = o2 ∧ ∀ e ∈ s.trace, e ∈ t0 ∨ EventOk o1 o2 e

/-- Invariant of the timed part of an attempt: `Saved`, and the mask registers
hold `o1`, `o2` with their three low bits cleared. -/
def Masked (o1 o2 : Nat) (t0 : List Event) (s : State) : Prop :=
  Saved o1 o2 t0 s ∧ s.TIMSK1 = o1 &&& 0b11111000 ∧ s.TIMSK2 = o2 &&& 0b11111000

/-! ## Properties of the rounding -/

theorem roundNearestEven_of_near (q : ℚ) (m : ℤ) (h : |q - m| < 1 / 2) :
    roundNearestEven q = m := by
  rw [abs_lt] at h
  obtain ⟨h1, h2⟩ := h
  have hfl := Int.floor_le q
  have hfl2 := Int.lt_floor_add_one q
  have hcase : ⌊q⌋ = m ∨ ⌊q⌋ = m - 1 := by
    have ha : (m : ℚ) - 1 < (⌊q⌋ : ℚ) + 1 := by linarith
    have hb : (⌊q⌋ : ℚ) < (m : ℚ) + 1 := by linarith
    have ha' : m - 1 < ⌊q⌋ + 1 := by exact_mod_cast ha
    have hb' : ⌊q⌋ < m + 1 := by exact_mod_cast hb
    omega
  unfold roundNearestEven
  rcases hcase with hc | hc
  · rw [hc]
    rw [if_pos (by linarith)]
  · rw [hc]
    have hlt : ¬ (q - ((m - 1 : ℤ) : ℚ) < 1 / 2) := by push_cast; linarith
    have hgt : 1 / 2 < q - ((m - 1 : ℤ) : ℚ) := by push_cast; linarith
    rw [if_neg hlt, if_pos hgt]
    ring

theorem roundNearestEven_error (q : ℚ) : |((roundNearestEven q : ℤ) : ℚ) - q| ≤ 1 / 2 := by
  have hfl := Int.floor_le q
  have hfl2 := Int.lt_floor_add_one q
  unfold roundNearestEven
  rw [abs_le]
  split_ifs with h1 h2 h3
  · constructor <;> linarith
  · push_cast; constructor <;> linarith
  · constructor <;> linarith
  · push_cast; constructor <;> linarith

theorem log_eq_of_bounds (r : ℚ) (e : ℤ) (h1 : (2 : ℚ) ^ e ≤ r) (h2 : r < (2 : ℚ) ^ (e + 1)) :
    Int.log 2 r = e := by
  have hr : 0 < r := lt_of_lt_of_le (by positivity) h1
  have ha : e ≤ Int.log 2 r := (Int.zpow_le_iff_le_log (by norm_num) hr).mp (by exact_mod_cast h1)
  have hb : Int.log 2 r < e + 1 := (Int.lt_zpow_iff_log_lt (by norm_num) hr).mp (by exact_mod_cast h2)
  omega

theorem roundBin_of_near (p : ℕ) (emin emax : ℤ) (x : ℚ) (e m : ℤ) (hlo : (2 : ℚ) ^ e ≤ |x|)
    (hhi : |x| < (2 : ℚ) ^ (e + 1)) (he : emin ≤ e)
    (hm : |x / 2 ^ (e - ((p : ℤ) - 1)) - m| < 1 / 2)
    (hfin : |(m : ℚ) * 2 ^ (e - ((p : ℤ) - 1))| < 2 ^ emax) :
    roundBin p emin emax x = FP.finite ((m : ℚ) * 2 ^ (e - ((p : ℤ) - 1))) := by
  have hx : x ≠ 0 := by
    intro h
    rw [h, abs_zero] at hlo
    have : (0 : ℚ) < 2 ^ e := by positivity
    linarith
  have hexp : max (Int.log 2 |x|) emin = e := by
    rw [log_eq_of_bounds |x| e hlo hhi]
    exact max_eq_left he
  unfold roundBin
  rw [if_neg hx]
  simp only [hexp]
  rw [roundNearestEven_of_near _ m hm, if_neg (not_le.mpr hfin)]

theorem roundBin_pos (p : ℕ) (emin emax : ℤ) (x : ℚ) (e m : ℤ) (hlo : (2 : ℚ) ^ e ≤ x)
    (hhi : x < (2 : ℚ) ^ (e + 1)) (he : emin ≤ e)
    (hm1 : (m : ℚ) - 1 / 2 < x / 2 ^ (e - ((p : ℤ) - 1)))
    (hm2 : x / 2 ^ (e - ((p : ℤ) - 1)) < (m : ℚ) + 1 / 2)
    (hfin : (m : ℚ) * 2 ^ (e - ((p : ℤ) - 1)) < 2 ^ emax) :
    roundBin p emin emax x = FP.finite ((m : ℚ) * 2 ^ (e - ((p : ℤ) - 1))) := by
  have hx : 0 < x := lt_of_lt_of_le (by positivity) hlo
  have hq : 0 < x / 2 ^ (e - ((p : ℤ) - 1)) := by positivity
  have hm0 : (0 : ℚ) ≤ m := by
    have h : (-1 : ℚ) < m := by linarith
    have h' : (-1 : ℤ) < m := by exact_mod_cast h
    have h'' : (0 : ℤ) ≤ m := by omega
    exact_mod_cast h''
  apply roundBin_of_near p emin emax x e m
  · rwa [abs_of_pos hx]
  · rwa [abs_of_pos hx]
  · exact he
  · rw [abs_lt]; constructor <;> linarith
  · rw [abs_of_nonneg (by positivity)]; exact hfin

theorem roundBin_zero (p : ℕ) (emin emax : ℤ) : roundBin p emin emax 0 = FP.finite 0 := by
  simp [roundBin]

theorem roundBin_error (p : ℕ) (emin emax : ℤ) (x : ℚ) (k : ℤ) (hp : 1 ≤ p) (hk : emin ≤ k)
    (hk2 : k < emax) (hx : |x| ≤ (2 : ℚ) ^ k) :
    ∃ y : ℚ, roundBin p emin emax x = FP.finite y ∧ |y - x| ≤ (2 : ℚ) ^ (k - (p : ℤ)) := by
  by_cases h0 : x = 0
  · refine ⟨0, by simp [roundBin, h0], ?_⟩
    rw [h0]; simp; positivity
  · have hpos : 0 < |x| := abs_pos.mpr h0
    have hlog : Int.log 2 |x| ≤ k := by
      have := Int.log_mono_right (b := 2) hpos hx
      rwa [show ((2 : ℚ) ^ k) = (((2 : ℕ) : ℚ) ^ k) by norm_num, Int.log_zpow (by norm_num)] at this
    have hexp : max (Int.log 2 |x|) emin ≤ k := max_le hlog hk
    set e := max (Int.log 2 |x|) emin with he
    set u : ℤ := e - ((p : ℤ) - 1) with hu
    have hulp : (0 : ℚ) < 2 ^ u := by positivity
    have herr := roundNearestEven_error (x / 2 ^ u)
    have hy : |((roundNearestEven (x / 2 ^ u) : ℤ) : ℚ) * 2 ^ u - x|
        ≤ (2 : ℚ) ^ (k - (p : ℤ)) := by
      have h1 : ((roundNearestEven (x / 2 ^ u) : ℤ) : ℚ) * 2 ^ u - x
          = (((roundNearestEven (x / 2 ^ u) : ℤ) : ℚ) - x / 2 ^ u) * 2 ^ u := by
        field_simp
      rw [h1, abs_mul, abs_of_pos hulp]
      have h2 : (2 : ℚ) ^ (k - (p : ℤ)) = 1 / 2 * 2 ^ (k - ((p : ℤ) - 1)) := by
        rw [show k - ((p : ℤ) - 1) = (k - (p : ℤ)) + 1 by ring,
          zpow_add₀ (by norm_num : (2 : ℚ) ≠ 0)]
        norm_num
        ring
      rw [h2]
      have h3 : (2 : ℚ) ^ u ≤ 2 ^ (k - ((p : ℤ) - 1)) :=
        zpow_le_zpow_right₀ (by norm_num) (by omega)
      exact mul_le_mul herr h3 hulp.le (by norm_num)
    refine ⟨((roundNearestEven (x / 2 ^ u) : ℤ) : ℚ) * 2 ^ u, ?_, hy⟩
    unfold roundBin
    rw [if_neg h0]
    simp only [← he, ← hu]
    rw [if_neg]
    rw [not_le]
    have hb1 : |((roundNearestEven (x / 2 ^ u) : ℤ) : ℚ) * 2 ^ u|
        ≤ |x| + 2 ^ (k - (p : ℤ)) := by
      have := abs_sub_abs_le_abs_sub (((roundNearestEven (x / 2 ^ u) : ℤ) : ℚ) * 2 ^ u) x
      linarith
    have hb3 : (2 : ℚ) ^ (k - (p : ℤ)) ≤ 2 ^ k :=
      zpow_le_zpow_right₀ (by norm_num) (by omega)
    have hb4 : (2 : ℚ) ^ (k + 1) = 2 ^ k + 2 ^ k := by
      rw [zpow_add₀ (by norm_num : (2 : ℚ) ≠ 0)]; ring
    have hb5 : (2 : ℚ) ^ (k + 1) ≤ 2 ^ emax := zpow_le_zpow_right₀ (by norm_num) (by omega)
    have hb6 : (0 : ℚ) < 2 ^ (k - (p : ℤ)) := by positivity
    have hb7 : (2 : ℚ) ^ (k - (p : ℤ)) < 2 ^ k :=
      zpow_lt_zpow_right₀ (by norm_num) (by omega)
    linarith

theorem roundBin_int (p : ℕ) (emin emax : ℤ) (n : ℤ) (hemin : emin ≤ 0)
    (hemax : (p : ℤ) ≤ emax) (hn : |n| < 2 ^ p) :
    roundBin p emin emax (n : ℚ) = FP.finite (n : ℚ) := by
  by_cases h0 : n = 0
  · subst h0; simpa using roundBin_zero p emin emax
  · have hq0 : (0 : ℚ) < |(n : ℚ)| := abs_pos.mpr (by exact_mod_cast h0)
    have h1 : (1 : ℚ) ≤ |(n : ℚ)| := by
      have : (1 : ℤ) ≤ |n| := Int.one_le_abs h0
      exact_mod_cast this
    have hpq : |(n : ℚ)| < (2 : ℚ) ^ (p : ℤ) := by
      have : ((|n| : ℤ) : ℚ) < ((2 ^ p : ℤ) : ℚ) := by exact_mod_cast hn
      have h2 : ((2 ^ p : ℤ) : ℚ) = (2 : ℚ) ^ (p : ℤ) := by
        push_cast; rw [zpow_natCast]
      rw [h2] at this
      simpa using this
    have hlo : (2 : ℚ) ^ (Int.log 2 |(n : ℚ)|) ≤ |(n : ℚ)| := by
      have := Int.zpow_log_le_self (b := 2) (by norm_num) hq0
      simpa using this
    have hhi : |(n : ℚ)| < (2 : ℚ) ^ (Int.log 2 |(n : ℚ)| + 1) := by
      have := Int.lt_zpow_succ_log_self (b := 2) (by norm_num) |(n : ℚ)|
      simpa using this
    have he0 : 0 ≤ Int.log 2 |(n : ℚ)| :=
      (Int.zpow_le_iff_le_log (b := 2) (by norm_num) hq0).mp (by simpa using h1)
    have hep : Int.log 2 |(n : ℚ)| < (p : ℤ) :=
      (Int.lt_zpow_iff_log_lt (b := 2) (by norm_num) hq0).mp (by simpa using hpq)
    generalize Int.log 2 |(n : ℚ)| = e at hlo hhi he0 hep
    obtain ⟨k, hk⟩ : ∃ k : ℕ, (k : ℤ) = (p : ℤ) - 1 - e :=
      ⟨((p : ℤ) - 1 - e).toNat, Int.toNat_of_nonneg (by omega)⟩
    have he : e - ((p : ℤ) - 1) = -(k : ℤ) := by omega
    have hpow : (2 : ℚ) ^ (e - ((p : ℤ) - 1)) = ((2 : ℚ) ^ k)⁻¹ := by
      rw [he, zpow_neg, zpow_natCast]
    have hk0 : ((2 : ℚ) ^ k) ≠ 0 := by positivity
    have key := roundBin_of_near p emin emax (n : ℚ) e (n * 2 ^ k) hlo hhi (by omega)
      (by rw [hpow]; push_cast; field_simp)
      (by
        rw [hpow]; push_cast
        rw [mul_assoc, mul_inv_cancel₀ hk0, mul_one]
        exact lt_of_lt_of_le hpq (zpow_le_zpow_right₀ (by norm_num) hemax))
    rw [key, hpow]
    push_cast
    rw [mul_assoc, mul_inv_cancel₀ hk0, mul_one]

theorem roundF32_zero : roundF32 0 = FP.finite 0 := roundBin_zero _ _ _

theorem roundF64_zero : roundF64 0 = FP.finite 0 := roundBin_zero _ _ _

theorem roundF32_nat (n : ℕ) (hn : n < 2 ^ 24) : roundF32 (n : ℚ) = FP.finite (n : ℚ) := by
  have := roundBin_int 24 (-126) 128 (n : ℤ) (by norm_num) (by norm_num)
    (by rw [abs_of_nonneg (by positivity)]; exact_mod_cast hn)
  simpa [roundF32] using this

theorem roundF64_nat (n : ℕ) (hn : n < 2 ^ 24) : roundF64 (n : ℚ) = FP.finite (n : ℚ) := by
  have := roundBin_int 53 (-1022) 1024 (n : ℤ) (by norm_num) (by norm_num)
    (by
      rw [abs_of_nonneg (by positivity)]
      have h1 : ((n : ℕ) : ℤ) < 2 ^ 24 := by exact_mod_cast hn
      have h2 : (2 : ℤ) ^ 24 ≤ 2 ^ 53 := by norm_num
      omega)
  simpa [roundF64] using this

theorem roundF32_int (n : ℤ) (hn : |n| < 2 ^ 24) : roundF32 (n : ℚ) = FP.finite (n : ℚ) :=
  roundBin_int 24 (-126) 128 n (by norm_num) (by norm_num) hn

theorem roundF32_eval (x y : ℚ) (e m : ℤ) (hlo : (2 : ℚ) ^ e ≤ x)
    (hhi : x < (2 : ℚ) ^ (e + 1)) (he : -126 ≤ e)
    (hm1 : (m : ℚ) - 1 / 2 < x / 2 ^ (e - 23)) (hm2 : x / 2 ^ (e - 23) < (m : ℚ) + 1 / 2)
    (hy : (m : ℚ) * 2 ^ (e - 23) = y) (hfin : y < 2 ^ (128 : ℤ)) :
    roundF32 x = FP.finite y := by
  have hq : e - (((24 : ℕ) : ℤ) - 1) = e - 23 := by norm_num
  rw [← hy]
  have h := roundBin_pos 24 (-126) 128 x e m hlo hhi he (by rw [hq]; exact hm1)
    (by rw [hq]; exact hm2) (by rw [hq, hy]; exact hfin)
  rw [hq] at h
  exact h

theorem roundF64_eval (x y : ℚ) (e m : ℤ) (hlo : (2 : ℚ) ^ e ≤ x)
    (hhi : x < (2 : ℚ) ^ (e + 1)) (he : -1022 ≤ e)
    (hm1 : (m : ℚ) - 1 / 2 < x / 2 ^ (e - 52)) (hm2 : x / 2 ^ (e - 52) < (m : ℚ) + 1 / 2)
    (hy : (m : ℚ) * 2 ^ (e - 52) = y) (hfin : y < 2 ^ (1024 : ℤ)) :
    roundF64 x = FP.finite y := by
  have hq : e - (((53 : ℕ) : ℤ) - 1) = e - 52 := by norm_num
  rw [← hy]
  have h := roundBin_pos 53 (-1022) 1024 x e m hlo hhi he (by rw [hq]; exact hm1)
    (by rw [hq]; exact hm2) (by rw [hq, hy]; exact hfin)
  rw [hq] at h
  exact h

theorem roundF32_error (x : ℚ) (k : ℤ) (hk : -126 ≤ k) (hk2 : k ≤ 127)
    (hx : |x| ≤ (2 : ℚ) ^ k) :
    ∃ y : ℚ, roundF32 x = FP.finite y ∧ |y - x| ≤ (2 : ℚ) ^ (k - 24) :=
  roundBin_error 24 (-126) 128 x k (by norm_num) hk (by omega) hx

theorem roundF64_error (x : ℚ) (k : ℤ) (hk : -1022 ≤ k) (hk2 : k ≤ 1023)
    (hx : |x| ≤ (2 : ℚ) ^ k) :
    ∃ y : ℚ, roundF64 x = FP.finite y ∧ |y - x| ≤ (2 : ℚ) ^ (k - 53) :=
  roundBin_error 53 (-1022) 1024 x k (by norm_num) hk (by omega) hx

theorem FP.add_finite (a b : ℚ) : FP.add (FP.finite a) (FP.finite b) = roundF32 (a + b) := rfl

theorem FP.sub_finite (a b : ℚ) : FP.sub (FP.finite a) (FP.finite b) = roundF32 (a - b) := rfl

theorem FP.mul_finite (a b : ℚ) : FP.mul (FP.finite a) (FP.finite b) = roundF32 (a * b) := rfl

theorem FP.divBy_finite (a d : ℚ) (hd : d ≠ 0) :
    FP.divBy (FP.finite a) d = roundF32 (a / d) := by
  simp [FP.divBy, hd]

theorem FP.addD_finite (tg : Target) (a b : ℚ) :
    FP.addD tg (FP.finite a) (FP.finite b) = tg.roundDouble (a + b) := rfl

theorem FP.mulD_finite (tg : Target) (a b : ℚ) :
    FP.mulD tg (FP.finite a) (FP.finite b) = tg.roundDouble (a * b) := rfl

theorem FP.divByD_finite (tg : Target) (a d : ℚ) (hd : d ≠ 0) :
    FP.divByD tg (FP.finite a) d = tg.roundDouble (a / d) := by
  simp [FP.divByD, hd]

/-- A small `int` converts to `float` without rounding. -/
theorem floatOfInt_small (n : Int) (hn : |n| < 2 ^ 24) : floatOfInt n = (n : ℚ) := by
  unfold floatOfInt
  rw [roundF32_int n hn]

/-- The literals are the nearest values of their formats. -/
theorem lit18_is_rounded (tg : Target) : tg.roundDouble 1.8 = FP.finite tg.lit18 := by
  rcases tg with ⟨iw, df⟩
  cases df
  · show roundF32 1.8 = FP.finite (7549747 / 4194304)
    apply roundF32_eval _ _ 0 15099494 <;> norm_num
  · show roundF64 1.8 = FP.finite (8106479329266893 / 4503599627370496)
    apply roundF64_eval _ _ 0 8106479329266893 <;> norm_num

theorem lit18_ne_zero (tg : Target) : tg.lit18 ≠ 0 := by
  rcases tg with ⟨iw, df⟩
  cases df <;> norm_num [Target.lit18]

/-- A `double` operation whose exact result has magnitude at most `2^k` gives a
finite value within `2^(k-24)` of it, whatever the format of `double`. -/
theorem roundDouble_error (tg : Target) (x : ℚ) (k : ℤ) (hk : -126 ≤ k) (hk2 : k ≤ 127)
    (hx : |x| ≤ (2 : ℚ) ^ k) :
    ∃ y : ℚ, tg.roundDouble x = FP.finite y ∧ |y - x| ≤ (2 : ℚ) ^ (k - 24) := by
  rcases tg with ⟨iw, df⟩
  cases df
  · exact roundF32_error x k hk hk2 hx
  · obtain ⟨y, h1, h2⟩ := roundF64_error x k (by omega) (by omega) hx
    refine ⟨y, h1, le_trans h2 ?_⟩
    exact zpow_le_zpow_right₀ (by norm_num) (by omega)

/-- Storing a `double` of magnitude at most `2^k` in a `float` gives a finite
value within `2^(k-24)` of it. -/
theorem storeFloat_error (tg : Target) (x : ℚ) (k : ℤ) (hk : -126 ≤ k) (hk2 : k ≤ 127)
    (hx : |x| ≤ (2 : ℚ) ^ k) :
    ∃ y : ℚ, tg.storeFloat (FP.finite x) = FP.finite y ∧ |y - x| ≤ (2 : ℚ) ^ (k - 24) := by
  rcases tg with ⟨iw, df⟩
  cases df
  · refine ⟨x, rfl, ?_⟩
    simp only [sub_self, abs_zero]
    positivity
  · exact roundF32_error x k hk hk2 hx

theorem roundDouble_nat (tg : Target) (n : ℕ) (hn : n < 2 ^ 24) :
    tg.roundDouble (n : ℚ) = FP.finite (n : ℚ) := by
  rcases tg with ⟨iw, df⟩
  cases df
  · exact roundF32_nat n hn
  · exact roundF64_nat n hn

theorem storeFloat_nat (tg : Target) (n : ℕ) (hn : n < 2 ^ 24) :
    tg.storeFloat (FP.finite (n : ℚ)) = FP.finite (n : ℚ) := by
  rcases tg with ⟨iw, df⟩
  cases df
  · rfl
  · exact roundF32_nat n hn

theorem wrapInt_of_range (tg : Target) (x : Int) (h1 : -32768 ≤ x) (h2 : x ≤ 32767) :
    tg.wrapInt x = x := by
  rcases tg with ⟨iw, df⟩
  cases iw
  · show (x + 32768) % 65536 - 32768 = x
    omega
  · show (x + 2147483648) % 4294967296 - 2147483648 = x
    omega

/-- Rounding error with the bound written out, for results of magnitude at most
`2^11`. -/
theorem roundF32_error_2048 (x : ℚ) (hx : |x| ≤ 2048) :
    ∃ y : ℚ, roundF32 x = FP.finite y ∧ |y - x| ≤ 1 / 8192 := by
  obtain ⟨y, h1, h2⟩ := roundF32_error x 11 (by norm_num) (by norm_num) (by norm_num; exact hx)
  exact ⟨y, h1, by norm_num at h2; exact h2⟩

theorem roundF32_error_1024 (x : ℚ) (hx : |x| ≤ 1024) :
    ∃ y : ℚ, roundF32 x = FP.finite y ∧ |y - x| ≤ 1 / 16384 := by
  obtain ⟨y, h1, h2⟩ := roundF32_error x 10 (by norm_num) (by norm_num) (by norm_num; exact hx)
  exact ⟨y, h1, by norm_num at h2; exact h2⟩

theorem roundDouble_error_2048 (tg : Target) (x : ℚ) (hx : |x| ≤ 2048) :
    ∃ y : ℚ, tg.roundDouble x = FP.finite y ∧ |y - x| ≤ 1 / 8192 := by
  obtain ⟨y, h1, h2⟩ :=
    roundDouble_error tg x 11 (by norm_num) (by norm_num) (by norm_num; exact hx)
  exact ⟨y, h1, by norm_num at h2; exact h2⟩

theorem roundDouble_error_1024 (tg : Target) (x : ℚ) (hx : |x| ≤ 1024) :
    ∃ y : ℚ, tg.roundDouble x = FP.finite y ∧ |y - x| ≤ 1 / 16384 := by
  obtain ⟨y, h1, h2⟩ :=
    roundDouble_error tg x 10 (by norm_num) (by norm_num) (by norm_num; exact hx)
  exact ⟨y, h1, by norm_num at h2; exact h2⟩

theorem roundDouble_error_512 (tg : Target) (x : ℚ) (hx : |x| ≤ 512) :
    ∃ y : ℚ, tg.roundDouble x = FP.finite y ∧ |y - x| ≤ 1 / 32768 := by
  obtain ⟨y, h1, h2⟩ :=
    roundDouble_error tg x 9 (by norm_num) (by norm_num) (by norm_num; exact hx)
  exact ⟨y, h1, by norm_num at h2; exact h2⟩

theorem roundDouble_error_32 (tg : Target) (x : ℚ) (hx : |x| ≤ 32) :
    ∃ y : ℚ, tg.roundDouble x = FP.finite y ∧ |y - x| ≤ 1 / 524288 := by
  obtain ⟨y, h1, h2⟩ :=
    roundDouble_error tg x 5 (by norm_num) (by norm_num) (by norm_num; exact hx)
  exact ⟨y, h1, by norm_num at h2; exact h2⟩

theorem storeFloat_error_2048 (tg : Target) (x : ℚ) (hx : |x| ≤ 2048) :
    ∃ y : ℚ, tg.storeFloat (FP.finite x) = FP.finite y ∧ |y - x| ≤ 1 / 8192 := by
  obtain ⟨y, h1, h2⟩ :=
    storeFloat_error tg x 11 (by norm_num) (by norm_num) (by norm_num; exact hx)
  exact ⟨y, h1, by norm_num at h2; exact h2⟩

theorem storeFloat_error_1024 (tg : Target) (x : ℚ) (hx : |x| ≤ 1024) :
    ∃ y : ℚ, tg.storeFloat (FP.finite x) = FP.finite y ∧ |y - x| ≤ 1 / 16384 := by
  obtain ⟨y, h1, h2⟩ :=
    storeFloat_error tg x 10 (by norm_num) (by norm_num) (by norm_num; exact hx)
  exact ⟨y, h1, by norm_num at h2; exact h2⟩

theorem storeFloat_error_512 (tg : Target) (x : ℚ) (hx : |x| ≤ 512) :
    ∃ y : ℚ, tg.storeFloat (FP.finite x) = FP.finite y ∧ |y - x| ≤ 1 / 32768 := by
  obtain ⟨y, h1, h2⟩ :=
    storeFloat_error tg x 9 (by norm_num) (by norm_num) (by norm_num; exact hx)
  exact ⟨y, h1, by norm_num at h2; exact h2⟩

/-! ## Theorems about the measurement type -/

/-- A Celsius measurement converted to Fahrenheit and back. -/
theorem fahrenheit_round_trip_eq (tg : Target) (t h : FP) (w : Int) :
    ((DHTMeasurement.mk t h Celsius w).convertScale tg Fahrenheit).convertScale tg Celsius
      = DHTMeasurement.mk
          (tg.storeFloat (FP.divByD tg
            (FP.sub (tg.storeFloat
              (FP.addD tg (FP.mulD tg t (FP.finite tg.lit18)) (FP.finite 32))) (FP.finite 32))
            tg.lit18)) h Celsius w := by
  simp [convertScale, celsiusToFahren, fahrenToCelsius]

/-- A Celsius measurement converted to Kelvin and back. -/
theorem kelvin_round_trip_eq (tg : Target) (t h : FP) (w : Int) :
    ((DHTMeasurement.mk t h Celsius w).convertScale tg Kelvin).convertScale tg Celsius
      = DHTMeasurement.mk (FP.sub (FP.add t (FP.finite 273)) (FP.finite 273)) h Celsius w := by
  simp [convertScale, celsiusToKelvin, kelvinToCelsius]

/-- C7, as stated, fails: 0.5 °C converted to Fahrenheit and back is
0.50000083 °C, whether `double` has 32 or 64 bits, and 25.299999 °C (the
`float` nearest to 25.3) converted to Kelvin and back is 25.299988 °C. -/
theorem round_trip_not_exact :
    ((DHTMeasurement.mk (FP.finite (1 / 2)) (FP.finite 40) Celsius 1).convertScale
          Target.atmega328p Fahrenheit).convertScale Target.atmega328p Celsius
        = DHTMeasurement.mk (FP.finite (4194311 / 8388608)) (FP.finite 40) Celsius 1
      ∧ ((DHTMeasurement.mk (FP.finite (1 / 2)) (FP.finite 40) Celsius 1).convertScale
          Target.wideDouble Fahrenheit).convertScale Target.wideDouble Celsius
        = DHTMeasurement.mk (FP.finite (4194311 / 8388608)) (FP.finite 40) Celsius 1
      ∧ (4194311 / 8388608 : ℚ) ≠ 1 / 2
      ∧ ((DHTMeasurement.mk (FP.finite (6632243 / 262144)) (FP.finite 40) Celsius 1).convertScale
          Target.atmega328p Kelvin).convertScale Target.atmega328p Celsius
        = DHTMeasurement.mk (FP.finite (414515 / 16384)) (FP.finite 40) Celsius 1
      ∧ (414515 / 16384 : ℚ) ≠ 6632243 / 262144 := by
  have a1 : roundF32 (7549747 / 8388608) = FP.finite (7549747 / 8388608) := by
    apply roundF32_eval _ _ (-1) 15099494 <;> norm_num
  have a2 : roundF32 (275985203 / 8388608) = FP.finite (4312269 / 131072) := by
    apply roundF32_eval _ _ 5 8624538 <;> norm_num
  have a3 : roundF32 (117965 / 131072) = FP.finite (117965 / 131072) := by
    apply roundF32_eval _ _ (-1) 15099520 <;> norm_num
  have a4 : roundF32 (3774880 / 7549747) = FP.finite (4194311 / 8388608) := by
    apply roundF32_eval _ _ (-1) 8388622 <;> norm_num
  have w1 : roundF64 (8106479329266893 / 9007199254740992) = FP.finite (8106479329266893 / 9007199254740992) := by
    apply roundF64_eval _ _ (-1) 8106479329266893 <;> norm_num
  have w2 : roundF64 (296336855480978637 / 9007199254740992) = FP.finite (4630263366890291 / 140737488355328) := by
    apply roundF64_eval _ _ 5 4630263366890291 <;> norm_num
  have w3 : roundF32 (4630263366890291 / 140737488355328) = FP.finite (4312269 / 131072) := by
    apply roundF32_eval _ _ 5 8624538 <;> norm_num
  have w5 : roundF64 (4053246536581120 / 8106479329266893) = FP.finite (4503607262867911 / 9007199254740992) := by
    apply roundF64_eval _ _ (-1) 4503607262867911 <;> norm_num
  have w6 : roundF32 (4503607262867911 / 9007199254740992) = FP.finite (4194311 / 8388608) := by
    apply roundF32_eval _ _ (-1) 8388622 <;> norm_num
  have k1 : roundF32 (78197555 / 262144) = FP.finite (4887347 / 16384) := by
    apply roundF32_eval _ _ 8 9774694 <;> norm_num
  have k2 : roundF32 (414515 / 16384) = FP.finite (414515 / 16384) := by
    apply roundF32_eval _ _ 4 13264480 <;> norm_num
  refine ⟨?_, ?_, by norm_num, ?_, by norm_num⟩
  · rw [fahrenheit_round_trip_eq]
    norm_num [Target.atmega328p, Target.storeFloat, Target.roundDouble, Target.lit18,
      FP.mulD_finite, FP.addD_finite, FP.sub_finite, FP.divByD_finite, a1, a2, a3, a4]
  · rw [fahrenheit_round_trip_eq]
    norm_num [Target.wideDouble, Target.storeFloat, Target.roundDouble, Target.lit18,
      FP.mulD_finite, FP.addD_finite, FP.sub_finite, FP.divByD_finite, w1, w2, w3, a3, w5, w6]
  · rw [kelvin_round_trip_eq]
    norm_num [FP.add_finite, FP.sub_finite, k1, k2]

/-- C7, amended: for every temperature `t` within ±1000 and every humidity and
weight, a Celsius measurement converted to Fahrenheit and back, and likewise
converted to Kelvin and back, ends with scale Celsius, humidity and weight
unchanged, and a temperature within `1/2048` of `t` (the floating-point
operations round); the Kelvin round trip returns exactly `t` for whole
degrees.  Scale, humidity and weight come back unchanged for every `float`. -/
theorem convertScale_round_trip (tg : Target) (t : ℚ) (h : FP) (w : Int) (ht : |t| ≤ 1000) :
    (∃ r : ℚ,
        ((DHTMeasurement.mk (FP.finite t) h Celsius w).convertScale tg Fahrenheit).convertScale
            tg Celsius = DHTMeasurement.mk (FP.finite r) h Celsius w
          ∧ |r - t| ≤ 1 / 2048)
      ∧ (∃ r : ℚ,
        ((DHTMeasurement.mk (FP.finite t) h Celsius w).convertScale tg Kelvin).convertScale
            tg Celsius = DHTMeasurement.mk (FP.finite r) h Celsius w
          ∧ |r - t| ≤ 1 / 2048)
      ∧ (∀ n : ℤ, |n| ≤ 1000 →
        ((DHTMeasurement.mk (FP.finite (n : ℚ)) h Celsius w).convertScale tg Kelvin).convertScale
            tg Celsius = DHTMeasurement.mk (FP.finite (n : ℚ)) h Celsius w)
      ∧ (∀ t0 : FP,
        (((DHTMeasurement.mk t0 h Celsius w).convertScale tg Fahrenheit).convertScale tg
            Celsius).scale = Celsius
          ∧ (((DHTMeasurement.mk t0 h Celsius w).convertScale tg Fahrenheit).convertScale tg
              Celsius).humidity = h
          ∧ (((DHTMeasurement.mk t0 h Celsius w).convertScale tg Fahrenheit).convertScale tg
              Celsius).averageCount = w
          ∧ (((DHTMeasurement.mk t0 h Celsius w).convertScale tg Kelvin).convertScale tg
              Celsius).scale = Celsius
          ∧ (((DHTMeasurement.mk t0 h Celsius w).convertScale tg Kelvin).convertScale tg
              Celsius).humidity = h
          ∧ (((DHTMeasurement.mk t0 h Celsius w).convertScale tg Kelvin).convertScale tg
              Celsius).averageCount = w) := by
  obtain ⟨ht1, ht2⟩ := abs_le.mp ht
  refine ⟨?_, ?_, ?_, ?_⟩
  · have hc := lit18_ne_zero tg
    have hcb : (7549747 / 4194304 : ℚ) ≤ tg.lit18 ∧ tg.lit18 ≤ 46 / 25 := by
      rcases tg with ⟨iw, df⟩
      cases df <;> norm_num [Target.lit18]
    have hcpos : (0 : ℚ) < tg.lit18 := by linarith [hcb.1]
    have htc : |t * tg.lit18| ≤ 1840 := by
      rw [abs_mul, abs_of_pos hcpos]
      calc |t| * tg.lit18 ≤ 1000 * (46 / 25) :=
            mul_le_mul ht hcb.2 hcpos.le (by norm_num)
        _ = 1840 := by norm_num
    obtain ⟨htc1, htc2⟩ := abs_le.mp htc
    obtain ⟨y1, h1, e1⟩ := roundDouble_error_2048 tg (t * tg.lit18)
      (by rw [abs_le]; constructor <;> linarith)
    obtain ⟨e1a, e1b⟩ := abs_le.mp e1
    obtain ⟨y2, h2, e2⟩ := roundDouble_error_2048 tg (y1 + 32)
      (by rw [abs_le]; constructor <;> linarith)
    obtain ⟨e2a, e2b⟩ := abs_le.mp e2
    obtain ⟨y2s, h2s, e2s⟩ := storeFloat_error_2048 tg y2
      (by rw [abs_le]; constructor <;> linarith)
    obtain ⟨e2sa, e2sb⟩ := abs_le.mp e2s
    obtain ⟨y3, h3, e3⟩ := roundF32_error_2048 (y2s - 32)
      (by rw [abs_le]; constructor <;> linarith)
    obtain ⟨e3a, e3b⟩ := abs_le.mp e3
    -- the quotient y3 / c is within 4/8192 / c of t
    have hd1 : y3 - t * tg.lit18 ≤ 4 / 8192 := by linarith
    have hd2 : -(4 / 8192) ≤ y3 - t * tg.lit18 := by linarith
    have hq : y3 / tg.lit18 - t = (y3 - t * tg.lit18) / tg.lit18 := by
      field_simp
      ring
    have hq1 : y3 / tg.lit18 - t ≤ 3 / 8192 := by
      rw [hq, div_le_iff₀ hcpos]
      linarith [hcb.1]
    have hq2 : -(3 / 8192) ≤ y3 / tg.lit18 - t := by
      rw [hq, le_div_iff₀ hcpos]
      linarith [hcb.1]
    obtain ⟨y4, h4, e4⟩ := roundDouble_error_1024 tg (y3 / tg.lit18)
      (by rw [abs_le]; constructor <;> linarith)
    obtain ⟨e4a, e4b⟩ := abs_le.mp e4
    obtain ⟨y4s, h4s, e4s⟩ := storeFloat_error_1024 tg y4
      (by rw [abs_le]; constructor <;> linarith)
    obtain ⟨e4sa, e4sb⟩ := abs_le.mp e4s
    refine ⟨y4s, ?_, ?_⟩
    · rw [fahrenheit_round_trip_eq, FP.mulD_finite, h1, FP.addD_finite, h2, h2s, FP.sub_finite,
        h3, FP.divByD_finite _ _ _ hc, h4, h4s]
    · rw [abs_le]; constructor <;> linarith
  · obtain ⟨y1, h1, e1⟩ := roundF32_error_2048 (t + 273)
      (by rw [abs_le]; constructor <;> linarith)
    obtain ⟨e1a, e1b⟩ := abs_le.mp e1
    obtain ⟨y2, h2, e2⟩ := roundF32_error_2048 (y1 - 273)
      (by rw [abs_le]; constructor <;> linarith)
    obtain ⟨e2a, e2b⟩ := abs_le.mp e2
    refine ⟨y2, ?_, ?_⟩
    · rw [kelvin_round_trip_eq, FP.add_finite, h1, FP.sub_finite, h2]
    · rw [abs_le]; constructor <;> linarith
  · intro n hn
    obtain ⟨hn1, hn2⟩ := abs_le.mp hn
    have ha : roundF32 (((n + 273 : ℤ) : ℚ)) = FP.finite ((n + 273 : ℤ) : ℚ) :=
      roundF32_int (n + 273) (by rw [abs_lt]; constructor <;> omega)
    have hb : roundF32 ((n : ℤ) : ℚ) = FP.finite ((n : ℤ) : ℚ) :=
      roundF32_int n (by rw [abs_lt]; constructor <;> omega)
    rw [kelvin_round_trip_eq, FP.add_finite]
    have hc : ((n : ℚ) + 273) = ((n + 273 : ℤ) : ℚ) := by push_cast; ring
    rw [hc, ha, FP.sub_finite]
    have hd : (((n + 273 : ℤ) : ℚ) - 273) = ((n : ℤ) : ℚ) := by push_cast; ring
    rw [hd, hb]
  · intro t0
    rw [fahrenheit_round_trip_eq, kelvin_round_trip_eq]
    exact ⟨rfl, rfl, rfl, rfl, rfl, rfl⟩

/-- Witness for C7 (amended): 25 °C on the ATmega328p. -/
theorem convertScale_round_trip_witness :
    |(25 : ℚ)| ≤ 1000
      ∧ ((DHTMeasurement.mk (FP.finite ((25 : ℤ) : ℚ)) (FP.finite 40) Celsius 1).convertScale
          Target.atmega328p Kelvin).convertScale Target.atmega328p Celsius
        = DHTMeasurement.mk (FP.finite ((25 : ℤ) : ℚ)) (FP.finite 40) Celsius 1 :=
  ⟨by norm_num,
    (convertScale_round_trip Target.atmega328p 25 (FP.finite 40) 1 (by norm_num)).2.2.1 25
      (by norm_num)⟩

/-- One `a += b` with operands of the same scale. -/
theorem operatorPlusEq_same_scale (tg : Target) (a b : DHTMeasurement) (h : a.scale = b.scale) :
    (operatorPlusEq tg (a, b)).1
      = { temperature := FP.divBy
            (FP.add (FP.mul a.temperature (FP.ofInt a.averageCount))
              (FP.mul b.temperature (FP.ofInt b.averageCount)))
            (floatOfInt (tg.wrapInt (a.averageCount + b.averageCount))),
          humidity := FP.divBy
            (FP.add (FP.mul a.humidity (FP.ofInt a.averageCount))
              (FP.mul b.humidity (FP.ofInt b.averageCount)))
            (floatOfInt (tg.wrapInt (a.averageCount + b.averageCount))),
          scale := a.scale,
          averageCount := tg.wrapInt (a.averageCount + 1) } := by
  simp [operatorPlusEq, operatorPlusEqBody, h]

/-- What `convertScale Celsius` does to each field. -/
theorem convertScale_celsius (tg : Target) (m : DHTMeasurement) :
    m.convertScale tg Celsius
      = { temperature := inCelsius tg m.scale m.temperature, humidity := m.humidity,
          scale := Celsius, averageCount := m.averageCount } := by
  cases m with
  | mk t h s w =>
    cases s <;> simp [convertScale, fahrenToCelsius, kelvinToCelsius, inCelsius]

/-- One `a += b` with operands of different scales. -/
theorem operatorPlusEq_other_scale (tg : Target) (a b : DHTMeasurement)
    (h : a.scale ≠ b.scale) :
    (operatorPlusEq tg (a, b)).1
      = { temperature := FP.divBy
            (FP.add (FP.mul (inCelsius tg a.scale a.temperature) (FP.ofInt a.averageCount))
              (FP.mul (inCelsius tg b.scale b.temperature) (FP.ofInt b.averageCount)))
            (floatOfInt (tg.wrapInt (a.averageCount + b.averageCount))),
          humidity := FP.divBy
            (FP.add (FP.mul a.humidity (FP.ofInt a.averageCount))
              (FP.mul b.humidity (FP.ofInt b.averageCount)))
            (floatOfInt (tg.wrapInt (a.averageCount + b.averageCount))),
          scale := Celsius,
          averageCount := tg.wrapInt (a.averageCount + 1) } := by
  simp [operatorPlusEq, operatorPlusEqBody, h, convertScale_celsius]

theorem floatOfInt_one : floatOfInt 1 = 1 := by
  simpa using floatOfInt_small 1 (by norm_num)

theorem floatOfInt_two : floatOfInt 2 = 2 := by
  simpa using floatOfInt_small 2 (by norm_num)

theorem floatOfInt_three : floatOfInt 3 = 3 := by
  simpa using floatOfInt_small 3 (by norm_num)

theorem floatOfInt_five : floatOfInt 5 = 5 := by
  simpa using floatOfInt_small 5 (by norm_num)

/-- C5, as stated, fails.  A Kelvin receiver `{300, 40, weight 2}` combined with
a Fahrenheit operand `{50, 60, weight 3}` gets the temperature 16.799999, not
`(27*2 + 10*3)/(2 + 3) = 16.8`, whether `double` has 32 or 64 bits; and on the
ATmega328p a receiver of weight 32767 ends with weight `-32768`, not 32768. -/
theorem weighted_average_not_exact :
    (operatorPlusEq Target.atmega328p
          (DHTMeasurement.mk (FP.finite 300) (FP.finite 40) Kelvin 2,
            DHTMeasurement.mk (FP.finite 50) (FP.finite 60) Fahrenheit 3)).1.temperature
        = FP.finite (4404019 / 262144)
      ∧ (operatorPlusEq Target.wideDouble
          (DHTMeasurement.mk (FP.finite 300) (FP.finite 40) Kelvin 2,
            DHTMeasurement.mk (FP.finite 50) (FP.finite 60) Fahrenheit 3)).1.temperature
        = FP.finite (4404019 / 262144)
      ∧ (4404019 / 262144 : ℚ) ≠ ((300 - 273) * 2 + (50 - 32) / (9 / 5) * 3) / (2 + 3)
      ∧ (operatorPlusEq Target.atmega328p
          (DHTMeasurement.mk (FP.finite 20) (FP.finite 40) Celsius 32767,
            DHTMeasurement.mk (FP.finite 30) (FP.finite 60) Celsius 1)).1.averageCount
        = -32768 := by
  have r27 : roundF32 27 = FP.finite 27 := by simpa using roundF32_nat 27 (by norm_num)
  have r18 : roundF32 18 = FP.finite 18 := by simpa using roundF32_nat 18 (by norm_num)
  have r54 : roundF32 54 = FP.finite 54 := by simpa using roundF32_nat 54 (by norm_num)
  have r30 : roundF32 30 = FP.finite 30 := by simpa using roundF32_nat 30 (by norm_num)
  have r84 : roundF32 84 = FP.finite 84 := by simpa using roundF32_nat 84 (by norm_num)
  have a10 : roundF32 (75497472 / 7549747) = FP.finite 10 := by
    apply roundF32_eval _ _ 3 10485760 <;> norm_num
  have w10 : roundF64 (81064793292668928 / 8106479329266893) = FP.finite 10 := by
    apply roundF64_eval _ _ 3 5629499534213120 <;> norm_num
  have w10s : roundF32 10 = FP.finite 10 := by
    apply roundF32_eval _ _ 3 10485760 <;> norm_num
  have r168 : roundF32 (84 / 5) = FP.finite (4404019 / 262144) := by
    apply roundF32_eval _ _ 4 8808038 <;> norm_num
  have hw : Target.atmega328p.wrapInt 5 = 5 := by decide
  have hw' : Target.wideDouble.wrapInt 5 = 5 := by decide
  refine ⟨?_, ?_, by norm_num, ?_⟩
  · rw [operatorPlusEq_other_scale _ _ _ (by decide)]
    norm_num [inCelsius, FP.ofInt, FP.mul_finite, FP.add_finite, FP.sub_finite,
      FP.divBy_finite, FP.divByD_finite, Target.atmega328p, Target.storeFloat,
      Target.roundDouble, Target.lit18, floatOfInt_two, floatOfInt_three, floatOfInt_five,
      r27, r18, r54, r30, r84, a10, r168]
    rw [show ({ int := IntWidth.bits16, double := DoubleFormat.binary32 } : Target)
      = Target.atmega328p from rfl, hw, floatOfInt_five]
    norm_num [FP.divBy_finite, r168]
  · rw [operatorPlusEq_other_scale _ _ _ (by decide)]
    norm_num [inCelsius, FP.ofInt, FP.mul_finite, FP.add_finite, FP.sub_finite,
      FP.divBy_finite, FP.divByD_finite, Target.wideDouble, Target.storeFloat,
      Target.roundDouble, Target.lit18, floatOfInt_two, floatOfInt_three, floatOfInt_five,
      r27, r18, r54, r30, r84, w10, w10s, r168]
    rw [show ({ int := IntWidth.bits16, double := DoubleFormat.binary64 } : Target)
      = Target.wideDouble from rfl, hw', floatOfInt_five]
    norm_num [FP.divBy_finite, r168]
  · rw [operatorPlusEq_same_scale _ _ _ (by rfl)]
    decide

/-- C5, amended: for every receiver `a` and operand `b` with weights at least
1 whose sum is at most 32767 (the range of the 16-bit `int`), `a += b` leaves
`a` with weight `wa + 1` whatever `wb` is, and with temperature
`(ta*wa + tb*wb)/(wa + wb)` and humidity `(ha*wa + hb*wb)/(wa + wb)` evaluated
in single precision, where `ta`, `tb` are the stored temperatures when the
scales agree (the scale then stays) and the temperatures converted to Celsius
when they differ (`a` then ends in Celsius); the caller's `b` is not modified.
When the two products, their sum and the quotient are single-precision values
the temperature is the exact weighted mean.  The two sample computations of
the specification are included. -/
theorem operatorPlusEq_weighted_average (tg : Target) (a b : DHTMeasurement)
    (ha : 1 ≤ a.averageCount) (hb : 1 ≤ b.averageCount)
    (hsum : a.averageCount + b.averageCount ≤ 32767) :
    (operatorPlusEq tg (a, b)).2 = b
      ∧ (operatorPlusEq tg (a, b)).1.averageCount = a.averageCount + 1
      ∧ (operatorPlusEq tg (a, b)).1.humidity
          = weightedMean a.humidity b.humidity a.averageCount b.averageCount
      ∧ (a.scale = b.scale →
          (operatorPlusEq tg (a, b)).1.scale = a.scale
            ∧ (operatorPlusEq tg (a, b)).1.temperature
                = weightedMean a.temperature b.temperature a.averageCount b.averageCount)
      ∧ (a.scale ≠ b.scale →
          (operatorPlusEq tg (a, b)).1.scale = Celsius
            ∧ (operatorPlusEq tg (a, b)).1.temperature
                = weightedMean (inCelsius tg a.scale a.temperature)
                    (inCelsius tg b.scale b.temperature) a.averageCount b.averageCount)
      ∧ (∀ ta tb : ℚ, a.temperature = FP.finite ta → b.temperature = FP.finite tb →
          a.scale = b.scale →
          Representable (ta * a.averageCount) → Representable (tb * b.averageCount) →
          Representable (ta * a.averageCount + tb * b.averageCount) →
          Representable ((ta * a.averageCount + tb * b.averageCount)
            / ((a.averageCount : ℚ) + b.averageCount)) →
          (operatorPlusEq tg (a, b)).1.temperature
            = FP.finite ((ta * a.averageCount + tb * b.averageCount)
                / ((a.averageCount : ℚ) + b.averageCount)))
      ∧ (operatorPlusEq tg (DHTMeasurement.mk (FP.finite 20) (FP.finite 40) Celsius 1,
            DHTMeasurement.mk (FP.finite 30) (FP.finite 60) Celsius 1)).1
          = DHTMeasurement.mk (FP.finite 25) (FP.finite 50) Celsius 2
      ∧ (operatorPlusEq tg (DHTMeasurement.mk (FP.finite 0) (FP.finite 50) Celsius 1,
            DHTMeasurement.mk (FP.finite 32) (FP.finite 50) Fahrenheit 1)).1
          = DHTMeasurement.mk (FP.finite 0) (FP.finite 50) Celsius 2 := by
  have hw1 : tg.wrapInt (a.averageCount + b.averageCount) = a.averageCount + b.averageCount :=
    wrapInt_of_range tg _ (by omega) hsum
  have hw2 : tg.wrapInt (a.averageCount + 1) = a.averageCount + 1 :=
    wrapInt_of_range tg _ (by omega) (by omega)
  have hfa : floatOfInt a.averageCount = (a.averageCount : ℚ) :=
    floatOfInt_small _ (by rw [abs_lt]; constructor <;> omega)
  have hfb : floatOfInt b.averageCount = (b.averageCount : ℚ) :=
    floatOfInt_small _ (by rw [abs_lt]; constructor <;> omega)
  have hfs : floatOfInt (a.averageCount + b.averageCount)
      = (a.averageCount : ℚ) + b.averageCount := by
    rw [floatOfInt_small _ (by rw [abs_lt]; constructor <;> omega)]
    push_cast
    rfl
  have hpos : ((a.averageCount : ℚ) + b.averageCount) ≠ 0 := by
    have h1 : (1 : ℚ) ≤ (a.averageCount : ℚ) := by exact_mod_cast ha
    have h2 : (1 : ℚ) ≤ (b.averageCount : ℚ) := by exact_mod_cast hb
    have : (0 : ℚ) < (a.averageCount : ℚ) + b.averageCount := by linarith
    exact ne_of_gt this
  have r0 : roundF32 0 = FP.finite 0 := roundF32_zero
  have r20 : roundF32 20 = FP.finite 20 := by simpa using roundF32_nat 20 (by norm_num)
  have r25 : roundF32 25 = FP.finite 25 := by simpa using roundF32_nat 25 (by norm_num)
  have r30 : roundF32 30 = FP.finite 30 := by simpa using roundF32_nat 30 (by norm_num)
  have r40 : roundF32 40 = FP.finite 40 := by simpa using roundF32_nat 40 (by norm_num)
  have r50 : roundF32 50 = FP.finite 50 := by simpa using roundF32_nat 50 (by norm_num)
  have r60 : roundF32 60 = FP.finite 60 := by simpa using roundF32_nat 60 (by norm_num)
  have r100 : roundF32 100 = FP.finite 100 := by simpa using roundF32_nat 100 (by norm_num)
  have hw11 : tg.wrapInt 2 = 2 := wrapInt_of_range tg 2 (by norm_num) (by norm_num)
  have hd0 : tg.roundDouble 0 = FP.finite 0 := by
    simpa using roundDouble_nat tg 0 (by norm_num)
  have hs0 : tg.storeFloat (FP.finite 0) = FP.finite 0 := by
    simpa using storeFloat_nat tg 0 (by norm_num)
  refine ⟨rfl, ?_, ?_, ?_, ?_, ?_, ?_, ?_⟩
  · by_cases h : a.scale = b.scale
    · rw [operatorPlusEq_same_scale tg a b h]; exact hw2
    · rw [operatorPlusEq_other_scale tg a b h]; exact hw2
  · by_cases h : a.scale = b.scale
    · rw [operatorPlusEq_same_scale tg a b h]; simp only [hw1, weightedMean]
    · rw [operatorPlusEq_other_scale tg a b h]; simp only [hw1, weightedMean]
  · intro h
    rw [operatorPlusEq_same_scale tg a b h]
    exact ⟨rfl, by simp only [hw1, weightedMean]⟩
  · intro h
    rw [operatorPlusEq_other_scale tg a b h]
    exact ⟨rfl, by simp only [hw1, weightedMean]⟩
  · intro ta tb hta htb h h1 h2 h3 h4
    rw [operatorPlusEq_same_scale tg a b h]
    simp only [hta, htb, FP.ofInt, FP.mul_finite, hw1, hfa, hfb, hfs]
    rw [h1, h2, FP.add_finite, h3, FP.divBy_finite _ _ hpos]
    exact h4
  · rw [operatorPlusEq_same_scale _ _ _ (by rfl)]
    norm_num [FP.ofInt, FP.mul_finite, FP.add_finite, FP.divBy_finite, hw11, floatOfInt_one,
      floatOfInt_two, r20, r30, r50, r25, r40, r60, r100]
  · rw [operatorPlusEq_other_scale _ _ _ (by decide)]
    norm_num [inCelsius, FP.ofInt, FP.mul_finite, FP.add_finite, FP.sub_finite,
      FP.divBy_finite, FP.divByD_finite, lit18_ne_zero, hw11, floatOfInt_one, floatOfInt_two,
      r0, r50, r100, hd0, hs0]

/-- Witness for C5 (amended): a Kelvin receiver of weight 2 and a Fahrenheit
operand of weight 3, on the ATmega328p. -/
theorem operatorPlusEq_weighted_average_witness :
    (1 : Int) ≤ (DHTMeasurement.mk (FP.finite 300) (FP.finite 40) Kelvin 2).averageCount
      ∧ (1 : Int) ≤ (DHTMeasurement.mk (FP.finite 50) (FP.finite 60) Fahrenheit 3).averageCount
      ∧ (2 : Int) + 3 ≤ 32767
      ∧ (operatorPlusEq Target.atmega328p
            (DHTMeasurement.mk (FP.finite 300) (FP.finite 40) Kelvin 2,
              DHTMeasurement.mk (FP.finite 50) (FP.finite 60) Fahrenheit 3)).1.averageCount = 3
      ∧ (operatorPlusEq Target.atmega328p
            (DHTMeasurement.mk (FP.finite 300) (FP.finite 40) Kelvin 2,
              DHTMeasurement.mk (FP.finite 50) (FP.finite 60) Fahrenheit 3)).2
          = DHTMeasurement.mk (FP.finite 50) (FP.finite 60) Fahrenheit 3 :=
  ⟨by decide, by decide, by decide,
    (operatorPlusEq_weighted_average Target.atmega328p
      (DHTMeasurement.mk (FP.finite 300) (FP.finite 40) Kelvin 2)
      (DHTMeasurement.mk (FP.finite 50) (FP.finite 60) Fahrenheit 3)
      (by decide) (by decide) (by decide)).2.1,
    (operatorPlusEq_weighted_average Target.atmega328p
      (DHTMeasurement.mk (FP.finite 300) (FP.finite 40) Kelvin 2)
      (DHTMeasurement.mk (FP.finite 50) (FP.finite 60) Fahrenheit 3)
      (by decide) (by decide) (by decide)).1⟩

theorem requestPulse_masked (o1 o2 : Nat) (t0 : List Event) (s : State)
    (h : Saved o1 o2 t0 s) : Masked o1 o2 t0 (requestPulse s) := by
  obtain ⟨h1, h2, h3⟩ := h
  refine ⟨⟨?_, ?_, ?_⟩, ?_, ?_⟩
  · simp [requestPulse, record, disableInterrupts, getTimerMasks, enableInterrupts, h1]
  · simp [requestPulse, record, disableInterrupts, getTimerMasks, enableInterrupts, h2]
  · intro e he
    simp only [requestPulse, record, disableInterrupts, getTimerMasks, enableInterrupts,
      List.mem_append, List.mem_singleton] at he
    rcases he with (he | he) | he
    · exact h3 e he
    · right; subst he; simp [EventOk, h1, h2]
    · right; subst he; simp [EventOk, h1, h2]
  · simp [requestPulse, record, disableInterrupts, getTimerMasks, enableInterrupts, h1]
  · simp [requestPulse, record, disableInterrupts, getTimerMasks, enableInterrupts, h2]

theorem record_masked (o1 o2 : Nat) (t0 : List Event) (s : State) (op : LineOp)
    (hop : op ≠ LineOp.driveLow) (h : Masked o1 o2 t0 s) : Masked o1 o2 t0 (record op s) := by
  obtain ⟨⟨h1, h2, h3⟩, h4, h5⟩ := h
  refine ⟨⟨h1, h2, ?_⟩, h4, h5⟩
  intro e he
  simp only [record, List.mem_append, List.mem_singleton] at he
  rcases he with he | he
  · exact h3 e he
  · right; subst he; simp [EventOk, hop, h4, h5]

theorem setData_masked (o1 o2 : Nat) (t0 : List Event) (s : State) (j v : Nat)
    (h : Masked o1 o2 t0 s) : Masked o1 o2 t0 (setData j v s) := h

theorem confirmRequest_masked (o1 o2 : Nat) (t0 : List Event) (a : Ack) (s : State)
    (h : Masked o1 o2 t0 s) : Masked o1 o2 t0 (confirmRequest a s).2 := by
  have hr := record_masked o1 o2 t0 s LineOp.timeAck (by decide) h
  unfold confirmRequest
  by_cases h1 : a.low < 30
  · simpa [h1] using hr
  · by_cases h2 : timedOut 100 a.high.polls = true
    · simpa [h1, h2] using hr
    · simpa [h1, h2] using hr

theorem receiveBits_masked (o1 o2 : Nat) (t0 : List Event) (pulses : Nat → Pulse) (n : Nat) :
    ∀ (i : Nat) (s : State), Masked o1 o2 t0 s → Masked o1 o2 t0 (receiveBits pulses n i s).2 := by
  induction n with
  | zero => intro i s h; simpa [receiveBits] using h
  | succ n ih =>
    intro i s h
    have hr := record_masked o1 o2 t0 s LineOp.timeBit (by decide) h
    unfold receiveBits
    by_cases h1 : timedOut 100 (pulses i).polls = true
    · simpa [h1] using hr
    · simp only [h1, Bool.false_eq_true, if_false]
      apply ih
      split
      · exact setData_masked _ _ _ _ _ _ (setData_masked _ _ _ _ _ _ hr)
      · exact setData_masked _ _ _ _ _ _ hr

/-- The state in which `receiveData` starts its bit loop: cells `0..4` cleared. -/
theorem clear_eq (s : State) :
    (List.range N_DATA_BYTES).foldl (fun st i => setData i 0 st) s
      = setData 4 0 (setData 3 0 (setData 2 0 (setData 1 0 (setData 0 0 s)))) := by
  simp [N_DATA_BYTES, List.range_succ]

/-- The result of `receiveData` in terms of the result of its bit loop. -/
theorem receiveData_eq (pulses : Nat → Pulse) (s : State) :
    receiveData pulses s
      = ((receiveBits pulses 40 0
            (setData 4 0 (setData 3 0 (setData 2 0 (setData 1 0 (setData 0 0 s)))))).1
          && decide (checksum (receiveBits pulses 40 0
            (setData 4 0 (setData 3 0 (setData 2 0 (setData 1 0 (setData 0 0 s)))))).2.data
              = (receiveBits pulses 40 0
            (setData 4 0 (setData 3 0 (setData 2 0 (setData 1 0 (setData 0 0 s)))))).2.data 4),
         (receiveBits pulses 40 0
            (setData 4 0 (setData 3 0 (setData 2 0 (setData 1 0 (setData 0 0 s)))))).2) := by
  unfold receiveData
  rw [clear_eq]
  have h40 : N_DATA_BYTES * 8 = 40 := by decide
  rw [h40]
  dsimp only
  generalize receiveBits pulses 40 0
    (setData 4 0 (setData 3 0 (setData 2 0 (setData 1 0 (setData 0 0 s))))) = r
  obtain ⟨ok, s1⟩ := r
  cases ok <;> simp

theorem receiveData_masked (o1 o2 : Nat) (t0 : List Event) (pulses : Nat → Pulse) (s : State)
    (h : Masked o1 o2 t0 s) : Masked o1 o2 t0 (receiveData pulses s).2 := by
  rw [receiveData_eq]
  exact receiveBits_masked o1 o2 t0 pulses 40 0 _ h

theorem requestData_masked (o1 o2 : Nat) (t0 : List Event) (acks : List Ack) :
    ∀ s : State, Saved o1 o2 t0 s → Masked o1 o2 t0 (lastState (requestData acks s)) := by
  induction acks with
  | nil => intro s h; simpa [requestData, lastState] using requestPulse_masked o1 o2 t0 s h
  | cons a rest ih =>
    intro s h
    have hc := confirmRequest_masked o1 o2 t0 a _ (requestPulse_masked o1 o2 t0 s h)
    unfold requestData
    generalize confirmRequest a (requestPulse s) = r at hc ⊢
    obtain ⟨ok, s1⟩ := r
    cases ok
    · exact ih s1 hc.1
    · simpa [lastState] using hc

theorem getDataLoop_masked (o1 o2 : Nat) (t0 : List Event) (script : List Round) :
    ∀ s : State, Saved o1 o2 t0 s → Masked o1 o2 t0 (lastState (getDataLoop script s)) := by
  induction script with
  | nil => intro s h; simpa [getDataLoop] using requestData_masked o1 o2 t0 [] s h
  | cons r rest ih =>
    intro s h
    have hq := requestData_masked o1 o2 t0 r.acks s h
    unfold getDataLoop
    generalize requestData r.acks s = q at hq ⊢
    cases q with
    | error s1 => simpa [lastState] using hq
    | ok s1 =>
      have hd := receiveData_masked o1 o2 t0 r.pulses s1 (by simpa [lastState] using hq)
      simp only
      generalize receiveData r.pulses s1 = d at hd ⊢
      obtain ⟨ok, s2⟩ := d
      cases ok
      · exact ih s2 hd.1
      · simpa [lastState] using hd

theorem ok_of_returned (r : Except State State) (h : returned r = true) :
    r = Except.ok (lastState r) := by
  cases r with
  | ok s => rfl
  | error s => simp [returned] at h

theorem land_low_bits (x : Nat) : (x &&& 0b11111000) &&& 0b111 = 0 := by
  rw [Nat.land_assoc]
  have h : (0b11111000 : Nat) &&& 0b111 = 0 := by decide
  rw [h]
  simp

/-- C8: for every run of `getData` that returns, whatever the number of failed
acknowledgments and failed receives, `TIMSK1` and `TIMSK2` hold on return the
values they held when `getData` was called, and the saved masks are still those
values (they were never overwritten with an already-masked value). -/
theorem getData_restores_timer_masks (script : List Round) (s s' : State)
    (h : getData script s = Except.ok s') :
    s'.TIMSK1 = s.TIMSK1 ∧ s'.TIMSK2 = s.TIMSK2
      ∧ s'.timer1Mask = s.TIMSK1 ∧ s'.timer2Mask = s.TIMSK2 := by
  have h0 : Saved s.TIMSK1 s.TIMSK2 s.trace (getTimerMasks s) :=
    ⟨rfl, rfl, fun e he => Or.inl he⟩
  have hm := getDataLoop_masked s.TIMSK1 s.TIMSK2 s.trace script _ h0
  unfold getData at h
  generalize getDataLoop script (getTimerMasks s) = r at hm h
  cases r with
  | error s1 => simp at h
  | ok s1 =>
    simp only [Except.ok.injEq] at h
    subst h
    obtain ⟨⟨h1, h2, _⟩, _, _⟩ := hm
    simp only [lastState] at h1 h2
    simp [enableInterrupts, h1, h2]

/-- Witness for C8: a failed acknowledgment and two checksum failures followed
by a success, on a board whose Timer1 and Timer2 interrupts are enabled. -/
theorem getData_restores_timer_masks_witness :
    getData retryScript bootState = Except.ok (lastState (getData retryScript bootState))
      ∧ (lastState (getData retryScript bootState)).TIMSK1 = 3
      ∧ (lastState (getData retryScript bootState)).TIMSK2 = 1 :=
  ⟨ok_of_returned _ (by decide),
    (getData_restores_timer_masks retryScript bootState _ (ok_of_returned _ (by decide))).1,
    (getData_restores_timer_masks retryScript bootState _ (ok_of_returned _ (by decide))).2.1⟩

/-- C9, as stated, fails: in a one-attempt transaction on a board whose timer
interrupts are enabled, the line is driven low while the low enable bits of
`TIMSK1` and `TIMSK2` are still set. -/
theorem pull_down_not_masked :
    ¬ (∀ e ∈ (lastState (getData [sensorRound [10, 0, 25, 0, 35]] bootState)).trace,
        (e.op = LineOp.driveLow ∨ e.op = LineOp.timeAck ∨ e.op = LineOp.timeBit) →
          e.timsk1 &&& 0b111 = 0 ∧ e.timsk2 &&& 0b111 = 0) := by
  intro h
  have h1 := h { op := LineOp.driveLow, timsk1 := 3, timsk2 := 1 } (by decide) (Or.inl rfl)
  revert h1
  decide

/-- C9, amended: in every attempt of a transaction, returning or not, the three
low enable bits of `TIMSK1` and of `TIMSK2` are cleared whenever the line is
released high and whenever an acknowledgment or a bit pulse is timed, while the
20 ms pull-down that precedes is done with both registers holding the values
they had when `getData` was called. -/
theorem timed_phases_masked (script : List Round) (s : State) (hs : s.trace = [])
    (e : Event) (he : e ∈ (lastState (getData script s)).trace) :
    (e.op = LineOp.driveLow → e.timsk1 = s.TIMSK1 ∧ e.timsk2 = s.TIMSK2)
      ∧ (e.op ≠ LineOp.driveLow → e.timsk1 &&& 0b111 = 0 ∧ e.timsk2 &&& 0b111 = 0) := by
  have h0 : Saved s.TIMSK1 s.TIMSK2 [] (getTimerMasks s) :=
    ⟨rfl, rfl, fun e he => by simp [getTimerMasks, hs] at he⟩
  have hm := getDataLoop_masked s.TIMSK1 s.TIMSK2 [] script _ h0
  have htrace : (lastState (getData script s)).trace
      = (lastState (getDataLoop script (getTimerMasks s))).trace := by
    unfold getData
    cases getDataLoop script (getTimerMasks s) <;> simp [lastState, enableInterrupts]
  rw [htrace] at he
  rcases hm.1.2.2 e he with hmem | hok
  · simp at hmem
  · refine ⟨hok.1, fun hop => ?_⟩
    obtain ⟨h1, h2⟩ := hok.2 hop
    rw [h1, h2]
    exact ⟨land_low_bits _, land_low_bits _⟩

/-- Witness for C9 (amended): a timed bit pulse of the retrying transaction. -/
theorem timed_phases_masked_witness :
    bootState.trace = []
      ∧ ({ op := LineOp.timeBit, timsk1 := 0, timsk2 := 0 } : Event)
          ∈ (lastState (getData retryScript bootState)).trace
      ∧ ((0 : Nat) &&& 0b111 = 0 ∧ (0 : Nat) &&& 0b111 = 0) :=
  ⟨rfl, by decide,
    (timed_phases_masked retryScript bootState rfl
      { op := LineOp.timeBit, timsk1 := 0, timsk2 := 0 } (by decide)).2 (by decide)⟩

/-! ## Acknowledgment window -/

theorem timedOut_eq_false (limit : Nat) (polls : List Nat) :
    timedOut limit polls = false ↔ ∀ r ∈ polls, r ≤ limit := by
  simp [timedOut, List.any_eq_false]

/-- C6, as stated, fails at both ends of the high-phase window: a high phase
measured at exactly 40 µs is inside the stated window and is rejected, and a
high phase measured at exactly 100 µs is outside it and is accepted. -/
theorem ack_window_boundaries :
    ¬ ((confirmRequest ackHigh40 bootState).1 = true ↔ specAckWindow ackHigh40)
      ∧ ¬ ((confirmRequest ackHigh100 bootState).1 = true ↔ specAckWindow ackHigh100) := by
  constructor
  · intro h
    have h1 : specAckWindow ackHigh40 := by
      simp [specAckWindow, ackHigh40]
    have h2 := h.mpr h1
    revert h2
    decide
  · intro h
    have h1 : (confirmRequest ackHigh100 bootState).1 = true := by decide
    have h2 := h.mp h1
    simp [specAckWindow, ackHigh100] at h2

/-- C6, amended: `confirmRequest` accepts exactly when the low phase is
measured at 30 µs or more, no elapsed time computed while the line is still
high exceeds 100 µs, and the elapsed time computed once the line has fallen
exceeds 40 µs.  So a low phase of 29 µs fails, a low phase of 31 µs followed by
a valid high phase succeeds, a high phase seen at 101 µs fails, a high phase of
exactly 40 µs fails and one of exactly 100 µs succeeds; for a high phase
measured at one duration `h` throughout, the window is `40 < h ≤ 100`. -/
theorem confirmRequest_accepts_iff (a : Ack) (s : State) :
    ((confirmRequest a s).1 = true
        ↔ 30 ≤ a.low ∧ (∀ r ∈ a.high.polls, r ≤ 100) ∧ 40 < a.high.final)
      ∧ (∀ hi : Pulse, (confirmRequest { low := 29, high := hi } s).1 = false)
      ∧ (∀ hi : Pulse, (∀ r ∈ hi.polls, r ≤ 100) → 40 < hi.final →
            (confirmRequest { low := 31, high := hi } s).1 = true)
      ∧ (∀ (lo : Nat) (hi : Pulse), 101 ∈ hi.polls →
            (confirmRequest { low := lo, high := hi } s).1 = false)
      ∧ (confirmRequest ackHigh40 s).1 = false
      ∧ (confirmRequest ackHigh100 s).1 = true
      ∧ (∀ lo h : Nat, (confirmRequest { low := lo, high := steady h } s).1 = true
            ↔ 30 ≤ lo ∧ 40 < h ∧ h ≤ 100) := by
  have key : ∀ b : Ack, ((confirmRequest b s).1 = true
      ↔ 30 ≤ b.low ∧ (∀ r ∈ b.high.polls, r ≤ 100) ∧ 40 < b.high.final) := by
    intro b
    unfold confirmRequest
    by_cases h1 : b.low < 30
    · simp [h1]
    · by_cases h2 : timedOut 100 b.high.polls = true
      · have h3 : ¬ (∀ r ∈ b.high.polls, r ≤ 100) := by
          intro h
          rw [(timedOut_eq_false 100 b.high.polls).mpr h] at h2
          exact Bool.false_ne_true h2
        simp only [h1, h2, if_true, if_false]
        constructor
        · intro h; exact absurd h Bool.false_ne_true
        · intro h; exact absurd h.2.1 h3
      · have h3 : ∀ r ∈ b.high.polls, r ≤ 100 :=
          (timedOut_eq_false 100 b.high.polls).mp (by simpa using h2)
        have h4 : timedOut 100 b.high.polls = false := by simpa using h2
        simp only [h1, h4, if_false, Bool.false_eq_true, decide_eq_true_eq]
        constructor
        · intro h; exact ⟨by omega, h3, h⟩
        · intro h; exact h.2.2
  refine ⟨key a, ?_, ?_, ?_, ?_, ?_, ?_⟩
  · intro hi
    have h := key { low := 29, high := hi }
    cases hc : (confirmRequest { low := 29, high := hi } s).1
    · rfl
    · have := (h.mp hc).1
      simp at this
  · intro hi h1 h2
    exact (key { low := 31, high := hi }).mpr ⟨by norm_num, h1, h2⟩
  · intro lo hi hmem
    have h := key { low := lo, high := hi }
    cases hc : (confirmRequest { low := lo, high := hi } s).1
    · rfl
    · have := (h.mp hc).2.1 101 hmem
      omega
  · cases hc : (confirmRequest ackHigh40 s).1
    · rfl
    · have := ((key ackHigh40).mp hc).2.2
      simp [ackHigh40] at this
  · exact (key ackHigh100).mpr (by decide)
  · intro lo h
    rw [key]
    simp only [steady, List.mem_singleton, forall_eq]
    constructor
    · intro hh; exact ⟨hh.1, hh.2.2, hh.2.1⟩
    · intro hh; exact ⟨hh.1, hh.2.2, hh.2.1⟩

/-! ## Bit decoding -/

theorem bitOf_le_one (pulses : Nat → Pulse) (i : Nat) : bitOf pulses i ≤ 1 := by
  unfold bitOf
  split <;> omega

theorem toNat_currBit (pulses : Nat → Pulse) (i : Nat) :
    (decide (47 < (pulses i).final)).toNat = bitOf pulses i := by
  unfold bitOf
  by_cases h : 47 < (pulses i).final <;> simp [h]

/-- While a byte is being read its cell stays below 256, and below 255 before
the eighth bit. -/
theorem byteAfter_bound (pulses : Nat → Pulse) (j m : Nat) (hm : m ≤ 8) :
    byteAfter pulses j m ≤ 255 ∧ (m ≤ 7 → byteAfter pulses j m ≤ 254) := by
  have h0 := bitOf_le_one pulses (8 * j)
  have h1 := bitOf_le_one pulses (8 * j + 1)
  have h2 := bitOf_le_one pulses (8 * j + 2)
  have h3 := bitOf_le_one pulses (8 * j + 3)
  have h4 := bitOf_le_one pulses (8 * j + 4)
  have h5 := bitOf_le_one pulses (8 * j + 5)
  have h6 := bitOf_le_one pulses (8 * j + 6)
  have h7 := bitOf_le_one pulses (8 * j + 7)
  interval_cases m <;> simp only [byteAfter] <;> norm_num <;> omega

/-- A completed byte is the most-significant-bit-first sum of its bits. -/
theorem byteAfter_eight (pulses : Nat → Pulse) (j : Nat) :
    byteAfter pulses j 8 = decodedByte pulses j := by
  simp only [byteAfter, decodedByte, Finset.sum_range_succ, Finset.sum_range_zero]
  norm_num
  ring

/-- One iteration of the bit loop, on the cells alone. -/
theorem bitsRead_step (pulses : Nat → Pulse) (j0 m : Nat) (hm : m < 8) (data : Nat → Nat)
    (h : BitsRead pulses (8 * j0 + m) data) :
    BitsRead pulses (8 * j0 + m + 1)
      (if m ≠ 7 then
          Function.update
            (Function.update data j0 ((data j0 + bitOf pulses (8 * j0 + m)) % CELL)) j0
            ((((data j0 + bitOf pulses (8 * j0 + m)) % CELL) <<< 1) % CELL)
        else Function.update data j0 ((data j0 + bitOf pulses (8 * j0 + m)) % CELL)) := by
  have hdiv : (8 * j0 + m) / 8 = j0 := by omega
  have hmod : (8 * j0 + m) % 8 = m := by omega
  have hb := bitOf_le_one pulses (8 * j0 + m)
  have hpb := byteAfter_bound pulses j0 m (by omega)
  intro j hj
  have hcur := h j hj
  rw [hdiv, hmod] at hcur
  by_cases h7 : m = 7
  · subst h7
    have hdiv1 : (8 * j0 + 7 + 1) / 8 = j0 + 1 := by omega
    have hmod1 : (8 * j0 + 7 + 1) % 8 = 0 := by omega
    rw [hdiv1, hmod1]
    simp only [ne_eq, not_true_eq_false, if_false]
    by_cases hjj : j = j0
    · subst hjj
      have hval : data j = byteAfter pulses j 7 := by simpa using hcur
      have hlt : j < j + 1 := by omega
      simp only [Function.update_same, hlt, if_true]
      rw [hval]
      have : byteAfter pulses j 8
          = byteAfter pulses j 7 + bitOf pulses (8 * j + 7) := by
        simp [byteAfter]
      rw [this, Nat.mod_eq_of_lt]
      have := hpb.2 (by omega)
      simp only [CELL]
      omega
    · rw [Function.update_noteq hjj, hcur]
      by_cases hlt : j < j0
      · have hlt1 : j < j0 + 1 := by omega
        simp [hlt, hlt1]
      · have hlt1 : ¬ j < j0 + 1 := by omega
        simp only [hlt, hlt1, hjj, if_false]
        by_cases hj1 : j = j0 + 1
        · simp [hj1, byteAfter]
        · simp [hj1]
  · have hdiv1 : (8 * j0 + m + 1) / 8 = j0 := by omega
    have hmod1 : (8 * j0 + m + 1) % 8 = m + 1 := by omega
    rw [hdiv1, hmod1]
    simp only [ne_eq, h7, not_false_eq_true, if_true]
    by_cases hjj : j = j0
    · subst hjj
      have hval : data j = byteAfter pulses j m := by simpa using hcur
      simp only [Function.update_same, lt_irrefl, if_false, if_true]
      rw [hval]
      have : byteAfter pulses j (m + 1)
          = (byteAfter pulses j m + bitOf pulses (8 * j + m)) * 2 := by
        simp [byteAfter, h7]
      rw [this, Nat.shiftLeft_eq]
      have := hpb.2 (by omega)
      simp only [CELL]
      omega
    · rw [Function.update_noteq hjj, Function.update_noteq hjj, hcur]
      simp [hjj]

/-- The bit loop decodes: when no remaining pulse times out, the loop runs to
its end and leaves the completed bytes in cells `0..4`. -/
theorem receiveBits_decodes (pulses : Nat → Pulse) (n : Nat) :
    ∀ (i : Nat) (s : State), i + n = 40 →
      (∀ k, i ≤ k → k < 40 → timedOut 100 (pulses k).polls = false) →
      BitsRead pulses i s.data →
      (receiveBits pulses n i s).1 = true
        ∧ BitsRead pulses 40 (receiveBits pulses n i s).2.data := by
  induction n with
  | zero =>
    intro i s hi _ h
    have : i = 40 := by omega
    subst this
    exact ⟨rfl, h⟩
  | succ n ih =>
    intro i s hi hno h
    obtain ⟨j0, m, hm, rfl⟩ : ∃ j0 m, m < 8 ∧ i = 8 * j0 + m :=
      ⟨i / 8, i % 8, Nat.mod_lt _ (by decide), by omega⟩
    have hdiv : (8 * j0 + m) / 8 = j0 := by omega
    have hmod : (8 * j0 + m) % 8 = m := by omega
    have hto := hno (8 * j0 + m) (le_refl _) (by omega)
    have hstep := bitsRead_step pulses j0 m hm s.data h
    unfold receiveBits
    simp only [hto, Bool.false_eq_true, if_false, hdiv, hmod, toNat_currBit]
    apply ih (8 * j0 + m + 1) _ (by omega) (fun k hk1 hk2 => hno k (by omega) hk2)
    by_cases h7 : m = 7
    · simp only [h7, ne_eq, not_true_eq_false, if_false] at hstep ⊢
      simpa [setData, record] using hstep
    · simp only [h7, ne_eq, not_false_eq_true, if_true] at hstep ⊢
      simpa [setData, record] using hstep

/-- A pulse that times out makes the bit loop give up. -/
theorem receiveBits_timeout (pulses : Nat → Pulse) (n : Nat) :
    ∀ (i : Nat) (s : State),
      (∃ k, i ≤ k ∧ k < i + n ∧ timedOut 100 (pulses k).polls = true) →
      (receiveBits pulses n i s).1 = false := by
  induction n with
  | zero =>
    intro i s h
    obtain ⟨k, h1, h2, _⟩ := h
    omega
  | succ n ih =>
    intro i s h
    obtain ⟨k, h1, h2, h3⟩ := h
    unfold receiveBits
    by_cases hto : timedOut 100 (pulses i).polls = true
    · simp [hto]
    · simp only [hto, Bool.false_eq_true, if_false]
      apply ih
      refine ⟨k, ?_, by omega, h3⟩
      rcases Nat.eq_or_lt_of_le h1 with heq | hlt
      · subst heq; exact absurd h3 hto
      · omega

/-- The cleared cells are the state of the bytes before any bit is read. -/
theorem bitsRead_clear (pulses : Nat → Pulse) (s : State) :
    BitsRead pulses 0
      (setData 4 0 (setData 3 0 (setData 2 0 (setData 1 0 (setData 0 0 s))))).data := by
  intro j hj
  have h : j = 0 ∨ j = 1 ∨ j = 2 ∨ j = 3 ∨ j = 4 := by omega
  rcases h with h | h | h | h | h <;> subst h <;> simp [setData, byteAfter, Function.update]

/-! ## Receiving and parsing the payload -/

theorem checksum_eq (data : Nat → Nat) :
    checksum data = (data 0 + data 1 + data 2 + data 3) % 256 := by
  simp only [checksum, N_DATA_BYTES, List.range_succ, List.range_zero, List.nil_append,
    List.cons_append, List.foldl_cons, List.foldl_nil, Nat.zero_add, Nat.add_one_sub_one]
  omega

theorem decodedByte_le (pulses : Nat → Pulse) (j : Nat) : decodedByte pulses j ≤ 255 := by
  rw [← byteAfter_eight]
  exact (byteAfter_bound pulses j 8 (le_refl 8)).1

/-- With no timeout `receiveData` leaves the decoded bytes in the cells and
returns the outcome of the checksum comparison. -/
theorem receiveData_no_timeout (pulses : Nat → Pulse) (s : State)
    (hno : ∀ i, i < 40 → timedOut 100 (pulses i).polls = false) :
    (∀ j, j < 5 → (receiveData pulses s).2.data j = decodedByte pulses j)
      ∧ ((receiveData pulses s).1 = true
          ↔ (decodedByte pulses 0 + decodedByte pulses 1 + decodedByte pulses 2
              + decodedByte pulses 3) % 256 = decodedByte pulses 4) := by
  have hd := receiveBits_decodes pulses 40 0
    (setData 4 0 (setData 3 0 (setData 2 0 (setData 1 0 (setData 0 0 s))))) (by omega)
    (fun k _ hk => hno k hk) (bitsRead_clear pulses s)
  have hcells : ∀ j, j < 5 → (receiveData pulses s).2.data j = decodedByte pulses j := by
    intro j hj
    rw [receiveData_eq]
    have h := hd.2 j hj
    have hlt : j < 40 / 8 := by omega
    rw [h, if_pos hlt, byteAfter_eight]
  refine ⟨hcells, ?_⟩
  have h0 := hcells 0 (by omega)
  have h1 := hcells 1 (by omega)
  have h2 := hcells 2 (by omega)
  have h3 := hcells 3 (by omega)
  have h4 := hcells 4 (by omega)
  rw [receiveData_eq] at h0 h1 h2 h3 h4 ⊢
  simp only at h0 h1 h2 h3 h4 ⊢
  rw [hd.1, checksum_eq, h0, h1, h2, h3, h4]
  simp

/-- With a timeout `receiveData` returns `false`. -/
theorem receiveData_timeout (pulses : Nat → Pulse) (s : State)
    (h : ∃ i, i < 40 ∧ timedOut 100 (pulses i).polls = true) :
    (receiveData pulses s).1 = false := by
  obtain ⟨i, hi, hto⟩ := h
  rw [receiveData_eq]
  have := receiveBits_timeout pulses 40 0
    (setData 4 0 (setData 3 0 (setData 2 0 (setData 1 0 (setData 0 0 s)))))
    ⟨i, Nat.zero_le i, by omega, hto⟩
  simp [this]

theorem no_timeout_iff (pulses : Nat → Pulse) :
    (∀ i, i < 40 → timedOut 100 (pulses i).polls = false)
      ↔ ∀ i, i < 40 → ∀ r ∈ (pulses i).polls, r ≤ 100 := by
  constructor
  · intro h i hi
    exact (timedOut_eq_false 100 _).mp (h i hi)
  · intro h i hi
    exact (timedOut_eq_false 100 _).mpr (h i hi)

/-- The return value of `receiveData`: `true` exactly when no pulse timed out
and the checksum of the decoded bytes matches. -/
theorem receiveData_iff (pulses : Nat → Pulse) (s : State) :
    (receiveData pulses s).1 = true
      ↔ (∀ i, i < 40 → ∀ r ∈ (pulses i).polls, r ≤ 100)
        ∧ (decodedByte pulses 0 + decodedByte pulses 1 + decodedByte pulses 2
            + decodedByte pulses 3) % 256 = decodedByte pulses 4 := by
  by_cases hno : ∀ i, i < 40 → timedOut 100 (pulses i).polls = false
  · rw [(receiveData_no_timeout pulses s hno).2]
    constructor
    · intro h; exact ⟨(no_timeout_iff pulses).mp hno, h⟩
    · intro h; exact h.2
  · have hex : ∃ i, i < 40 ∧ timedOut 100 (pulses i).polls = true := by
      by_contra hcon
      apply hno
      intro i hi
      cases hc : timedOut 100 (pulses i).polls
      · rfl
      · exact absurd ⟨i, hi, hc⟩ hcon
    rw [receiveData_timeout pulses s hex]
    constructor
    · intro h; exact absurd h Bool.false_ne_true
    · intro h; exact absurd ((no_timeout_iff pulses).mpr h.1) hno

theorem decoded_good :
    decodedByte (sensorPulses [10, 0, 25, 0, 35]) 0 = 10
      ∧ decodedByte (sensorPulses [10, 0, 25, 0, 35]) 1 = 0
      ∧ decodedByte (sensorPulses [10, 0, 25, 0, 35]) 2 = 25
      ∧ decodedByte (sensorPulses [10, 0, 25, 0, 35]) 3 = 0
      ∧ decodedByte (sensorPulses [10, 0, 25, 0, 35]) 4 = 35 := by
  simp only [← byteAfter_eight]
  decide

theorem decoded_bad :
    decodedByte (sensorPulses [10, 0, 25, 0, 36]) 0 = 10
      ∧ decodedByte (sensorPulses [10, 0, 25, 0, 36]) 1 = 0
      ∧ decodedByte (sensorPulses [10, 0, 25, 0, 36]) 2 = 25
      ∧ decodedByte (sensorPulses [10, 0, 25, 0, 36]) 3 = 0
      ∧ decodedByte (sensorPulses [10, 0, 25, 0, 36]) 4 = 36 := by
  simp only [← byteAfter_eight]
  decide

theorem sensorPulses_in_time (payload : List Nat) (i : Nat) :
    ∀ r ∈ (sensorPulses payload i).polls, r ≤ 100 := by
  unfold sensorPulses sensorBit
  split <;> decide

/-- C3, as stated, fails: two high phases that the timeout checks see at 96 µs
and 100 µs and that are measured at 104 µs after the line has dropped are not
rejected; they are decoded as `1` bits and the payload `[128,0,0,0,128]` is
accepted. -/
theorem late_pulse_accepted :
    (receiveData latePulses bootState).1 = true
      ∧ (latePulses 0).final = 104
      ∧ ((receiveData latePulses bootState).2.data 0 = 128
          ∧ (receiveData latePulses bootState).2.data 1 = 0
          ∧ (receiveData latePulses bootState).2.data 2 = 0
          ∧ (receiveData latePulses bootState).2.data 3 = 0
          ∧ (receiveData latePulses bootState).2.data 4 = 128)
      ∧ ¬ ((receiveData latePulses bootState).1 = true ↔ specReceiveOk latePulses) := by
  refine ⟨by decide, rfl, by decide, ?_⟩
  intro h
  have h1 : (receiveData latePulses bootState).1 = true := by decide
  have h2 := (h.mp h1).1 0 (by decide)
  revert h2
  decide

/-- C3, amended: for every sequence of 40 bit pulses `receiveData` returns
`true` if and only if no elapsed time read by a timeout check while the line
is still high exceeds 100 µs and the sum of the first four decoded bytes modulo
256 equals the fifth decoded byte; the reading taken after the line has
dropped is only compared with 47 µs.  For phases measured at one duration
`d i` throughout this is: no `d i` exceeds 100.  The payload
`[10,0,25,0,35]` is accepted; `[10,0,25,0,36]` is rejected, after which
`getData` sends a new request: left alone it is still waiting, and when the
next transmission is correct it returns after two request pulses. -/
theorem receiveData_accepts_iff (pulses : Nat → Pulse) (s : State) :
    ((receiveData pulses s).1 = true
        ↔ (∀ i, i < 40 → ∀ r ∈ (pulses i).polls, r ≤ 100)
          ∧ (decodedByte pulses 0 + decodedByte pulses 1 + decodedByte pulses 2
              + decodedByte pulses 3) % 256 = decodedByte pulses 4)
      ∧ (∀ d : Nat → Nat, (receiveData (fun i => steady (d i)) s).1 = true
          ↔ (∀ i, i < 40 → d i ≤ 100)
            ∧ (decodedByte (fun i => steady (d i)) 0 + decodedByte (fun i => steady (d i)) 1
                + decodedByte (fun i => steady (d i)) 2
                + decodedByte (fun i => steady (d i)) 3) % 256
              = decodedByte (fun i => steady (d i)) 4)
      ∧ (receiveData (sensorPulses [10, 0, 25, 0, 35]) s).1 = true
      ∧ (receiveData (sensorPulses [10, 0, 25, 0, 36]) s).1 = false
      ∧ returned (getData [sensorRound [10, 0, 25, 0, 36]] bootState) = false
      ∧ ((lastState (getData [sensorRound [10, 0, 25, 0, 36]] bootState)).trace.filter
            (fun e => decide (e.op = LineOp.driveLow))).length = 2
      ∧ returned (getData [sensorRound [10, 0, 25, 0, 36], sensorRound [10, 0, 25, 0, 35]]
            bootState) = true
      ∧ ((lastState (getData [sensorRound [10, 0, 25, 0, 36], sensorRound [10, 0, 25, 0, 35]]
            bootState)).trace.filter (fun e => decide (e.op = LineOp.driveLow))).length = 2 := by
  refine ⟨receiveData_iff pulses s, ?_, ?_, ?_, by decide, by decide, by decide, by decide⟩
  · intro d
    rw [receiveData_iff]
    simp only [steady, List.mem_singleton, forall_eq]
  · rw [receiveData_iff]
    refine ⟨fun i _ => sensorPulses_in_time _ i, ?_⟩
    obtain ⟨h0, h1, h2, h3, h4⟩ := decoded_good
    rw [h0, h1, h2, h3, h4]
  · cases hc : (receiveData (sensorPulses [10, 0, 25, 0, 36]) s).1
    · rfl
    · have h := ((receiveData_iff _ s).mp hc).2
      obtain ⟨h0, h1, h2, h3, h4⟩ := decoded_bad
      rw [h0, h1, h2, h3, h4] at h
      simp at h

/-- C4: for every sequence of 40 measured high phases none of which aborts the
read, `receiveData` leaves in payload byte `j` (`j = 0..4`) the sum over
`k = 0..7` of `b[8j+k] * 2^(7-k)`, where `b[i]` is 1 if pulse `i` was measured
longer than 47 µs and 0 otherwise: most significant bit first, at most 255, and
whatever the cells held before the call.  A pulse of 46 µs is a 0 and a pulse
of 48 µs is a 1. -/
theorem receiveData_packs_bits (pulses : Nat → Pulse) (s : State)
    (hno : ∀ i, i < 40 → ∀ r ∈ (pulses i).polls, r ≤ 100) :
    (∀ j, j < 5 →
        (receiveData pulses s).2.data j
            = ∑ k in Finset.range 8,
                (if 47 < (pulses (8 * j + k)).final then 1 else 0) * 2 ^ (7 - k)
          ∧ (receiveData pulses s).2.data j ≤ 255
          ∧ ∀ s2 : State, (receiveData pulses s2).2.data j = (receiveData pulses s).2.data j)
      ∧ (∀ i, (pulses i).final = 46 → bitOf pulses i = 0)
      ∧ (∀ i, (pulses i).final = 48 → bitOf pulses i = 1) := by
  have hno1 := (no_timeout_iff pulses).mpr hno
  refine ⟨fun j hj => ⟨?_, ?_, ?_⟩, ?_, ?_⟩
  · rw [(receiveData_no_timeout pulses s hno1).1 j hj]
    simp only [decodedByte, bitOf]
  · rw [(receiveData_no_timeout pulses s hno1).1 j hj]
    exact decodedByte_le pulses j
  · intro s2
    rw [(receiveData_no_timeout pulses s hno1).1 j hj,
      (receiveData_no_timeout pulses s2 hno1).1 j hj]
  · intro i hi
    simp [bitOf, hi]
  · intro i hi
    simp [bitOf, hi]

/-- Witness for C4: the pulses of the payload `[10,0,25,0,35]`, received into a
state whose cells hold another payload. -/
theorem receiveData_packs_bits_witness :
    (∀ i, i < 40 → ∀ r ∈ (sensorPulses [10, 0, 25, 0, 35] i).polls, r ≤ 100)
      ∧ (receiveData (sensorPulses [10, 0, 25, 0, 35]) (setData 2 99 bootState)).2.data 2
          = ∑ k in Finset.range 8,
              (if 47 < (sensorPulses [10, 0, 25, 0, 35] (8 * 2 + k)).final then 1 else 0)
                * 2 ^ (7 - k)
      ∧ (receiveData (sensorPulses [10, 0, 25, 0, 35]) (setData 2 99 bootState)).2.data 2
          ≤ 255 :=
  ⟨fun i _ => sensorPulses_in_time _ i,
    ((receiveData_packs_bits (sensorPulses [10, 0, 25, 0, 35]) (setData 2 99 bootState)
      (fun i _ => sensorPulses_in_time _ i)).1 2 (by decide)).1,
    ((receiveData_packs_bits (sensorPulses [10, 0, 25, 0, 35]) (setData 2 99 bootState)
      (fun i _ => sensorPulses_in_time _ i)).1 2 (by decide)).2.1⟩

/-- A transaction that returns ends with a `receiveData` that returned
`true`. -/
theorem getDataLoop_ok (script : List Round) :
    ∀ s s' : State, getDataLoop script s = Except.ok s' →
      ∃ (pulses : Nat → Pulse) (s1 : State), receiveData pulses s1 = (true, s') := by
  induction script with
  | nil =>
    intro s s' h
    simp [getDataLoop, requestData] at h
  | cons r rest ih =>
    intro s s' h
    unfold getDataLoop at h
    cases hq : requestData r.acks s with
    | error s1 => rw [hq] at h; simp at h
    | ok s1 =>
      rw [hq] at h
      simp only at h
      cases hd : receiveData r.pulses s1 with
      | mk ok s2 =>
        rw [hd] at h
        cases ok
        · exact ih s2 s' h
        · simp only [Except.ok.injEq] at h
          subst h
          exact ⟨r.pulses, s1, hd⟩

/-- After a transaction that returned, the cells hold bytes whose checksum
matches. -/
theorem getData_ok_payload (script : List Round) (s s' : State)
    (h : getData script s = Except.ok s') :
    (∀ j, j < 5 → s'.data j ≤ 255)
      ∧ (s'.data 0 + s'.data 1 + s'.data 2 + s'.data 3) % 256 = s'.data 4 := by
  unfold getData at h
  cases hl : getDataLoop script (getTimerMasks s) with
  | error s1 => rw [hl] at h; simp at h
  | ok s1 =>
    rw [hl] at h
    simp only [Except.ok.injEq] at h
    subst h
    obtain ⟨pulses, s0, hr⟩ := getDataLoop_ok script _ _ hl
    have hflag : (receiveData pulses s0).1 = true := by rw [hr]
    have hstate : (receiveData pulses s0).2 = s1 := by rw [hr]
    have hiff := (receiveData_iff pulses s0).mp hflag
    have hcells := (receiveData_no_timeout pulses s0 ((no_timeout_iff pulses).mpr hiff.1)).1
    rw [hstate] at hcells
    simp only [enableInterrupts]
    refine ⟨fun j hj => ?_, ?_⟩
    · rw [hcells j hj]; exact decodedByte_le pulses j
    · rw [hcells 0 (by omega), hcells 1 (by omega), hcells 2 (by omega), hcells 3 (by omega),
        hcells 4 (by omega)]
      exact hiff.2

theorem intOfCell_byte (x : Nat) (h : x ≤ 255) : intOfCell x = (x : Int) := by
  unfold intOfCell
  rw [if_pos (by omega)]

/-! ## Parsing the payload -/

theorem roundDouble_atmega328p (x : ℚ) : Target.atmega328p.roundDouble x = roundF32 x := rfl

theorem storeFloat_atmega328p (v : FP) : Target.atmega328p.storeFloat v = v := rfl

theorem lit18_atmega328p : Target.atmega328p.lit18 = 7549747 / 4194304 := rfl

theorem roundDouble_wideDouble (x : ℚ) : Target.wideDouble.roundDouble x = roundF64 x := rfl

theorem storeFloat_wideDouble (q : ℚ) :
    Target.wideDouble.storeFloat (FP.finite q) = roundF32 q := rfl

theorem lit18_wideDouble :
    Target.wideDouble.lit18 = 8106479329266893 / 4503599627370496 := rfl

/-- The literal `1.8` is within `2^-22 / 5` of `9/5` in both formats. -/
theorem lit18_near (tg : Target) :
    (9 / 5 : ℚ) - 1 / 20971520 ≤ tg.lit18 ∧ tg.lit18 ≤ 9 / 5 + 1 / 20971520 := by
  rcases tg with ⟨iw, df⟩
  cases df <;> norm_num [Target.lit18]

/-- The value `int(hi) + int(lo) / 10.0` of two payload bytes, stored in a
`float`: finite, within `1/8192` of `hi + lo/10`, and exactly `hi` when `lo`
is 0. -/
theorem parse_value (tg : Target) (hi lo : Nat) (hhi : hi ≤ 255) (hlo : lo ≤ 255) :
    ∃ c : ℚ,
      tg.storeFloat (FP.addD tg (FP.ofIntD tg (intOfCell hi))
          (FP.divByD tg (FP.ofIntD tg (intOfCell lo)) 10)) = FP.finite c
        ∧ |c - ((hi : ℚ) + (lo : ℚ) / 10)| ≤ 1 / 8192
        ∧ -1 ≤ c ∧ c ≤ 281
        ∧ (lo = 0 → c = (hi : ℚ)) := by
  have hhiq : (hi : ℚ) ≤ 255 := by exact_mod_cast hhi
  have hloq : (lo : ℚ) ≤ 255 := by exact_mod_cast hlo
  have hhi0 : (0 : ℚ) ≤ (hi : ℚ) := by positivity
  have hlo0 : (0 : ℚ) ≤ (lo : ℚ) := by positivity
  obtain ⟨y1, h1, e1⟩ := roundDouble_error_32 tg ((lo : ℚ) / 10)
    (by rw [abs_le]; constructor <;> linarith)
  obtain ⟨e1a, e1b⟩ := abs_le.mp e1
  obtain ⟨y2, h2, e2⟩ := roundDouble_error_512 tg ((hi : ℚ) + y1)
    (by rw [abs_le]; constructor <;> linarith)
  obtain ⟨e2a, e2b⟩ := abs_le.mp e2
  obtain ⟨y3, h3, e3⟩ := storeFloat_error_512 tg y2
    (by rw [abs_le]; constructor <;> linarith)
  obtain ⟨e3a, e3b⟩ := abs_le.mp e3
  have hih : FP.ofIntD tg (intOfCell hi) = FP.finite (hi : ℚ) := by
    rw [intOfCell_byte hi hhi]
    simpa [FP.ofIntD] using roundDouble_nat tg hi (by omega)
  have hil : FP.ofIntD tg (intOfCell lo) = FP.finite (lo : ℚ) := by
    rw [intOfCell_byte lo hlo]
    simpa [FP.ofIntD] using roundDouble_nat tg lo (by omega)
  have heq : tg.storeFloat (FP.addD tg (FP.ofIntD tg (intOfCell hi))
      (FP.divByD tg (FP.ofIntD tg (intOfCell lo)) 10)) = FP.finite y3 := by
    rw [hih, hil, FP.divByD_finite _ _ _ (by norm_num), h1, FP.addD_finite, h2, h3]
  refine ⟨y3, heq, ?_, by linarith, by linarith, ?_⟩
  · rw [abs_le]; constructor <;> linarith
  · intro h0
    subst h0
    have hz : tg.roundDouble (((0 : ℕ) : ℚ) / 10) = FP.finite 0 := by
      simpa using roundDouble_nat tg 0 (by norm_num)
    rw [hz] at h1
    have hy1 : y1 = 0 := by
      injection h1 with h1'
      exact h1'.symm
    rw [hy1, add_zero, roundDouble_nat tg hi (by omega)] at h2
    have hy2 : y2 = (hi : ℚ) := by
      injection h2 with h2'
      exact h2'.symm
    rw [hy2, storeFloat_nat tg hi (by omega)] at h3
    injection h3 with h3'
    exact h3'.symm

/-- C2, as stated, fails: for the payload `[45,7,23,4,79]` the driver returns
the humidity 45.700001 and the Celsius temperature 23.4 rounded down to
23.399999, not the rationals `45 + 7/10` and `23 + 4/10`, whether `double`
has 32 or 64 bits. -/
theorem parse_not_exact :
    getHumidity Target.atmega328p [sensorRound [45, 7, 23, 4, 79]] bootState
        = some (FP.finite (11979981 / 262144))
      ∧ (11979981 / 262144 : ℚ) ≠ 45 + 7 / 10
      ∧ getTemperature Target.atmega328p Celsius [sensorRound [45, 7, 23, 4, 79]] bootState
        = some (FP.finite (12268339 / 524288))
      ∧ (12268339 / 524288 : ℚ) ≠ 23 + 4 / 10
      ∧ getHumidity Target.wideDouble [sensorRound [45, 7, 23, 4, 79]] bootState
        = some (FP.finite (11979981 / 262144))
      ∧ getTemperature Target.wideDouble Celsius [sensorRound [45, 7, 23, 4, 79]] bootState
        = some (FP.finite (12268339 / 524288)) := by
  have hret : getData [sensorRound [45, 7, 23, 4, 79]] bootState
      = Except.ok (lastState (getData [sensorRound [45, 7, 23, 4, 79]] bootState)) :=
    ok_of_returned _ (by decide)
  have hdata : (lastState (getData [sensorRound [45, 7, 23, 4, 79]] bootState)).data 0 = 45
      ∧ (lastState (getData [sensorRound [45, 7, 23, 4, 79]] bootState)).data 1 = 7
      ∧ (lastState (getData [sensorRound [45, 7, 23, 4, 79]] bootState)).data 2 = 23
      ∧ (lastState (getData [sensorRound [45, 7, 23, 4, 79]] bootState)).data 3 = 4 := by
    decide
  obtain ⟨d0, d1, d2, d3⟩ := hdata
  have n45 : roundF32 45 = FP.finite 45 := by simpa using roundF32_nat 45 (by norm_num)
  have m45 : roundF64 45 = FP.finite 45 := by simpa using roundF64_nat 45 (by norm_num)
  have n7 : roundF32 7 = FP.finite 7 := by simpa using roundF32_nat 7 (by norm_num)
  have m7 : roundF64 7 = FP.finite 7 := by simpa using roundF64_nat 7 (by norm_num)
  have n23 : roundF32 23 = FP.finite 23 := by simpa using roundF32_nat 23 (by norm_num)
  have m23 : roundF64 23 = FP.finite 23 := by simpa using roundF64_nat 23 (by norm_num)
  have n4 : roundF32 4 = FP.finite 4 := by simpa using roundF32_nat 4 (by norm_num)
  have m4 : roundF64 4 = FP.finite 4 := by simpa using roundF64_nat 4 (by norm_num)
  have r1 : roundF32 (7 / 10) = FP.finite (11744051 / 16777216) := by
    apply roundF32_eval _ _ (-1) 11744051 <;> norm_num
  have r2 : roundF32 (766718771 / 16777216) = FP.finite (11979981 / 262144) := by
    apply roundF32_eval _ _ 5 11979981 <;> norm_num
  have r3 : roundF32 (2 / 5) = FP.finite (13421773 / 33554432) := by
    apply roundF32_eval _ _ (-2) 13421773 <;> norm_num
  have r4 : roundF32 (785173709 / 33554432) = FP.finite (12268339 / 524288) := by
    apply roundF32_eval _ _ 4 12268339 <;> norm_num
  have w1 : roundF64 (7 / 10) = FP.finite (3152519739159347 / 4503599627370496) := by
    apply roundF64_eval _ _ (-1) 6305039478318694 <;> norm_num
  have w2 : roundF64 (205814502970831667 / 4503599627370496) = FP.finite (3215851608919245 / 70368744177664) := by
    apply roundF64_eval _ _ 5 6431703217838490 <;> norm_num
  have w2s : roundF32 (3215851608919245 / 70368744177664) = FP.finite (11979981 / 262144) := by
    apply roundF32_eval _ _ 5 11979981 <;> norm_num
  have w3 : roundF64 (2 / 5) = FP.finite (3602879701896397 / 9007199254740992) := by
    apply roundF64_eval _ _ (-2) 7205759403792794 <;> norm_num
  have w4 : roundF64 (210768462560939213 / 9007199254740992) = FP.finite (3293257227514675 / 140737488355328) := by
    apply roundF64_eval _ _ 4 6586514455029350 <;> norm_num
  have w4s : roundF32 (3293257227514675 / 140737488355328) = FP.finite (12268339 / 524288) := by
    apply roundF32_eval _ _ 4 12268339 <;> norm_num
  refine ⟨?_, by norm_num, ?_, by norm_num, ?_, ?_⟩
  · unfold getHumidity
    rw [hret]
    simp only [parseHumidity, d0, d1]
    norm_num [intOfCell, FP.ofIntD, FP.divByD_finite, FP.addD_finite, roundDouble_atmega328p,
      storeFloat_atmega328p, n45, n7, r1, r2]
  · unfold getTemperature
    rw [hret]
    simp only [parseTemperature, d2, d3]
    norm_num [intOfCell, FP.ofIntD, FP.divByD_finite, FP.addD_finite, roundDouble_atmega328p,
      storeFloat_atmega328p, n23, n4, r3, r4]
  · unfold getHumidity
    rw [hret]
    simp only [parseHumidity, d0, d1]
    norm_num [intOfCell, FP.ofIntD, FP.divByD_finite, FP.addD_finite, roundDouble_wideDouble,
      storeFloat_wideDouble, m45, m7, w1, w2, w2s]
  · unfold getTemperature
    rw [hret]
    simp only [parseTemperature, d2, d3]
    norm_num [intOfCell, FP.ofIntD, FP.divByD_finite, FP.addD_finite, roundDouble_wideDouble,
      storeFloat_wideDouble, m23, m4, w3, w4, w4s]

/-- C2, amended: after a successful transaction with payload bytes `p[0..4]`
(each within `0..255`, checksum matching), `getHumidity` returns
`p[0] + p[1]/10` and `getTemperature(s)` returns `c = p[2] + p[3]/10` for
Celsius, `c*1.8 + 32` for Fahrenheit and `c + 273` for Kelvin, each computed in
floating point: a finite value within `1/2048` of the exact rational, and
equal to it (humidity, Celsius, Kelvin) when the fraction byte is 0. -/
theorem getData_then_parse (tg : Target) (script : List Round) (s s' : State)
    (h : getData script s = Except.ok s') :
    (∀ j, j < 5 → s'.data j ≤ 255)
      ∧ (s'.data 0 + s'.data 1 + s'.data 2 + s'.data 3) % 256 = s'.data 4
      ∧ (∃ hum : ℚ, getHumidity tg script s = some (FP.finite hum)
          ∧ |hum - ((s'.data 0 : ℚ) + (s'.data 1 : ℚ) / 10)| ≤ 1 / 2048
          ∧ (s'.data 1 = 0 → hum = (s'.data 0 : ℚ)))
      ∧ (∃ c : ℚ, getTemperature tg Celsius script s = some (FP.finite c)
          ∧ |c - ((s'.data 2 : ℚ) + (s'.data 3 : ℚ) / 10)| ≤ 1 / 2048
          ∧ (s'.data 3 = 0 → c = (s'.data 2 : ℚ)))
      ∧ (∃ f : ℚ, getTemperature tg Fahrenheit script s = some (FP.finite f)
          ∧ |f - (((s'.data 2 : ℚ) + (s'.data 3 : ℚ) / 10) * 1.8 + 32)| ≤ 1 / 2048)
      ∧ (∃ k : ℚ, getTemperature tg Kelvin script s = some (FP.finite k)
          ∧ |k - (((s'.data 2 : ℚ) + (s'.data 3 : ℚ) / 10) + 273)| ≤ 1 / 2048
          ∧ (s'.data 3 = 0 → k = (s'.data 2 : ℚ) + 273)) := by
  obtain ⟨hb, hsum⟩ := getData_ok_payload script s s' h
  obtain ⟨hum, hhum, ehum, _, _, zhum⟩ :=
    parse_value tg (s'.data 0) (s'.data 1) (hb 0 (by omega)) (hb 1 (by omega))
  obtain ⟨c, hc, ec, c0, c281, zc⟩ :=
    parse_value tg (s'.data 2) (s'.data 3) (hb 2 (by omega)) (hb 3 (by omega))
  obtain ⟨ec1, ec2⟩ := abs_le.mp ec
  have hp2 : (s'.data 2 : ℚ) ≤ 255 := by exact_mod_cast hb 2 (by omega)
  have hp3 : (s'.data 3 : ℚ) ≤ 255 := by exact_mod_cast hb 3 (by omega)
  have hp20 : (0 : ℚ) ≤ (s'.data 2 : ℚ) := by positivity
  have hp30 : (0 : ℚ) ≤ (s'.data 3 : ℚ) := by positivity
  refine ⟨hb, hsum, ?_, ?_, ?_, ?_⟩
  · refine ⟨hum, ?_, le_trans ehum (by norm_num), zhum⟩
    simp only [getHumidity, h, parseHumidity, hhum]
  · refine ⟨c, ?_, le_trans ec (by norm_num), zc⟩
    simp only [getTemperature, h, parseTemperature, hc]
  · obtain ⟨hL1, hL2⟩ := lit18_near tg
    have hLpos : (0 : ℚ) < tg.lit18 := by linarith
    have hLle : tg.lit18 ≤ 1801 / 1000 := by linarith
    -- the product c * 1.8 against the exact (p2 + p3/10) * 9/5
    have hsplit : c * tg.lit18 - ((s'.data 2 : ℚ) + (s'.data 3 : ℚ) / 10) * (9 / 5)
        = (c - ((s'.data 2 : ℚ) + (s'.data 3 : ℚ) / 10)) * tg.lit18
          + ((s'.data 2 : ℚ) + (s'.data 3 : ℚ) / 10) * (tg.lit18 - 9 / 5) := by ring
    have hA : |(c - ((s'.data 2 : ℚ) + (s'.data 3 : ℚ) / 10)) * tg.lit18|
        ≤ 1 / 8192 * (1801 / 1000) := by
      rw [abs_mul, abs_of_pos hLpos]
      exact mul_le_mul ec hLle hLpos.le (by norm_num)
    have hB : |((s'.data 2 : ℚ) + (s'.data 3 : ℚ) / 10) * (tg.lit18 - 9 / 5)|
        ≤ 281 * (1 / 20971520) := by
      rw [abs_mul]
      apply mul_le_mul _ _ (abs_nonneg _) (by norm_num)
      · rw [abs_le]; constructor <;> linarith
      · rw [abs_le]; constructor <;> linarith
    obtain ⟨hA1, hA2⟩ := abs_le.mp hA
    obtain ⟨hB1, hB2⟩ := abs_le.mp hB
    have hprod : |c * tg.lit18| ≤ 512 := by
      rw [abs_mul, abs_of_pos hLpos]
      calc |c| * tg.lit18 ≤ 281 * (1801 / 1000) :=
            mul_le_mul (by rw [abs_le]; constructor <;> linarith) hLle hLpos.le (by norm_num)
        _ ≤ 512 := by norm_num
    obtain ⟨hprod1, hprod2⟩ := abs_le.mp hprod
    have hlow : -2 ≤ c * tg.lit18 := by
      have : -(1 * (1801 / 1000)) ≤ c * tg.lit18 := by
        have h1 : -c ≤ 1 := by linarith
        have := mul_le_mul h1 hLle hLpos.le (by norm_num : (0 : ℚ) ≤ 1)
        linarith
      linarith
    obtain ⟨y1, h1, e1⟩ := roundDouble_error_512 tg (c * tg.lit18) hprod
    obtain ⟨e1a, e1b⟩ := abs_le.mp e1
    obtain ⟨y2, h2, e2⟩ := roundDouble_error_1024 tg (y1 + 32)
      (by rw [abs_le]; constructor <;> linarith)
    obtain ⟨e2a, e2b⟩ := abs_le.mp e2
    obtain ⟨y3, h3, e3⟩ := storeFloat_error_1024 tg y2
      (by rw [abs_le]; constructor <;> linarith)
    obtain ⟨e3a, e3b⟩ := abs_le.mp e3
    refine ⟨y3, ?_, ?_⟩
    · simp only [getTemperature, h, parseTemperature, hc]
      rw [FP.mulD_finite, h1, FP.addD_finite, h2, h3]
    · have h18 : ((s'.data 2 : ℚ) + (s'.data 3 : ℚ) / 10) * 1.8
          = ((s'.data 2 : ℚ) + (s'.data 3 : ℚ) / 10) * (9 / 5) := by norm_num
      rw [h18, abs_le]
      constructor <;> linarith
  · obtain ⟨y1, h1, e1⟩ := roundF32_error_1024 (c + 273)
      (by rw [abs_le]; constructor <;> linarith)
    obtain ⟨e1a, e1b⟩ := abs_le.mp e1
    refine ⟨y1, ?_, ?_, ?_⟩
    · simp only [getTemperature, h, parseTemperature, hc]
      rw [FP.add_finite, h1]
    · rw [abs_le]; constructor <;> linarith
    · intro h0
      have hcz := zc h0
      rw [hcz] at h1
      have hnat : ((s'.data 2 : ℚ) + 273) = (((s'.data 2 + 273 : ℕ)) : ℚ) := by push_cast; ring
      rw [hnat, roundF32_nat _ (by have := hb 2 (by omega); omega)] at h1
      injection h1 with h1'
      rw [← h1']
      push_cast
      ring

theorem good_run_payload :
    (lastState (getData [sensorRound [10, 0, 25, 0, 35]] bootState)).data 0 = 10
      ∧ (lastState (getData [sensorRound [10, 0, 25, 0, 35]] bootState)).data 1 = 0
      ∧ (lastState (getData [sensorRound [10, 0, 25, 0, 35]] bootState)).data 2 = 25
      ∧ (lastState (getData [sensorRound [10, 0, 25, 0, 35]] bootState)).data 3 = 0
      ∧ (lastState (getData [sensorRound [10, 0, 25, 0, 35]] bootState)).data 4 = 35 := by
  decide

theorem good_run_returns :
    getData [sensorRound [10, 0, 25, 0, 35]] bootState
      = Except.ok (lastState (getData [sensorRound [10, 0, 25, 0, 35]] bootState)) :=
  ok_of_returned _ (by decide)

/-- Witness for C2 (amended): the payload `[10,0,25,0,35]` gives humidity 10 and
temperature 25 in Celsius, exactly, on the ATmega328p. -/
theorem getData_then_parse_witness :
    getData [sensorRound [10, 0, 25, 0, 35]] bootState
        = Except.ok (lastState (getData [sensorRound [10, 0, 25, 0, 35]] bootState))
      ∧ getHumidity Target.atmega328p [sensorRound [10, 0, 25, 0, 35]] bootState
          = some (FP.finite 10)
      ∧ getTemperature Target.atmega328p Celsius [sensorRound [10, 0, 25, 0, 35]] bootState
          = some (FP.finite 25) := by
  have h := getData_then_parse Target.atmega328p [sensorRound [10, 0, 25, 0, 35]] bootState _
    good_run_returns
  obtain ⟨h0, h1, h2, h3, _⟩ := good_run_payload
  obtain ⟨_, _, ⟨hum, hhum, _, zhum⟩, ⟨c, hc, _, zc⟩, _⟩ := h
  refine ⟨good_run_returns, ?_, ?_⟩
  · rw [hhum, zhum h1, h0]; norm_num
  · rw [hc, zc h3, h2]; norm_num

/-- C1 fails on the code: asked for Fahrenheit with payload `[10,0,25,0,35]`,
`getMeasurements` returns the temperature 77 (25 °C in Fahrenheit) in a
measurement whose `scale` is `Celsius`, so a later `convertScale Celsius`
leaves 77 in place and `convertScale Kelvin` gives 350; the same happens where
`double` has 64 bits. -/
theorem getMeasurements_scale_not_set :
    getMeasurements Target.atmega328p Fahrenheit [sensorRound [10, 0, 25, 0, 35]] bootState
        = some (DHTMeasurement.mk (FP.finite 77) (FP.finite 10) Celsius 1)
      ∧ (DHTMeasurement.mk (FP.finite 77) (FP.finite 10) Celsius 1).scale ≠ Fahrenheit
      ∧ (DHTMeasurement.mk (FP.finite 77) (FP.finite 10) Celsius 1).convertScale
            Target.atmega328p Celsius
          = DHTMeasurement.mk (FP.finite 77) (FP.finite 10) Celsius 1
      ∧ (DHTMeasurement.mk (FP.finite 77) (FP.finite 10) Celsius 1).convertScale
            Target.atmega328p Kelvin
          = DHTMeasurement.mk (FP.finite 350) (FP.finite 10) Kelvin 1
      ∧ getMeasurements Target.wideDouble Fahrenheit [sensorRound [10, 0, 25, 0, 35]] bootState
        = some (DHTMeasurement.mk (FP.finite 77) (FP.finite 10) Celsius 1) := by
  obtain ⟨h0, h1, h2, h3, _⟩ := good_run_payload
  have r0 : roundF32 0 = FP.finite 0 := roundF32_zero
  have d0 : roundF64 0 = FP.finite 0 := roundF64_zero
  have n10 : roundF32 10 = FP.finite 10 := by simpa using roundF32_nat 10 (by norm_num)
  have n25 : roundF32 25 = FP.finite 25 := by simpa using roundF32_nat 25 (by norm_num)
  have n45 : roundF32 45 = FP.finite 45 := by simpa using roundF32_nat 45 (by norm_num)
  have n77 : roundF32 77 = FP.finite 77 := by simpa using roundF32_nat 77 (by norm_num)
  have n350 : roundF32 350 = FP.finite 350 := by simpa using roundF32_nat 350 (by norm_num)
  have m10 : roundF64 10 = FP.finite 10 := by simpa using roundF64_nat 10 (by norm_num)
  have m25 : roundF64 25 = FP.finite 25 := by simpa using roundF64_nat 25 (by norm_num)
  have m45 : roundF64 45 = FP.finite 45 := by simpa using roundF64_nat 45 (by norm_num)
  have m77 : roundF64 77 = FP.finite 77 := by simpa using roundF64_nat 77 (by norm_num)
  have a45 : roundF32 (188743675 / 4194304) = FP.finite 45 := by
    apply roundF32_eval _ _ 5 11796480 <;> norm_num
  have w45 : roundF64 (202661983231672325 / 4503599627370496) = FP.finite 45 := by
    apply roundF64_eval _ _ 5 6333186975989760 <;> norm_num
  refine ⟨?_, by decide, ?_, ?_, ?_⟩
  · unfold getMeasurements
    rw [good_run_returns]
    simp only [parseTemperature, parseHumidity, h0, h1, h2, h3]
    norm_num [intOfCell, FP.ofIntD, FP.divByD_finite, FP.addD_finite, FP.mulD_finite,
      roundDouble_atmega328p, storeFloat_atmega328p, lit18_atmega328p, r0, n10, n25, a45, n77]
  · simp [convertScale]
  · have e1 : ¬ (Celsius = Kelvin) := by decide
    have e2 : ¬ (Kelvin = Celsius) := by decide
    have e3 : ¬ (Kelvin = Fahrenheit) := by decide
    norm_num [convertScale, celsiusToKelvin, FP.add_finite, n350, e1, e2, e3]
  · unfold getMeasurements
    rw [good_run_returns]
    simp only [parseTemperature, parseHumidity, h0, h1, h2, h3]
    norm_num [intOfCell, FP.ofIntD, FP.divByD_finite, FP.addD_finite, FP.mulD_finite,
      roundDouble_wideDouble, storeFloat_wideDouble, lit18_wideDouble, r0, d0, n10, n25, n77,
      m10, m25, m77, w45]

end DHT11Sensor
